import Mathlib

/-!
A shallow embedding, in Lean, of the deterministic content-extraction and
schema-repair engine of the `sd_generator_v1` repository: the repair
functions, the validator (required-field policy and JSON-LD construction),
the multi-entity batch validator, the DOM cleaner, and the HTML flattener.
Definitions are translated from the TypeScript sources
(`src/lib/pipeline/validator.ts`, `src/lib/pipeline/cleaning.ts`,
`src/lib/pipeline/flatten.ts`, and the unnamed validator revision); external
runtime facilities (WHATWG URL, JS `Date`, `parseFloat`, number
stringification) are modelled explicitly and marked as such. Theorems at the
end of the file settle the specification's claims.
-/

set_option maxRecDepth 4000

namespace SDGen

/-! ## Generic string helpers -/

/-- JavaScript truthiness of a nullable string field (`if (s)`):
present and nonempty. -/
def truthyStr : Option String → Bool
  | some s => s ≠ ""
  | none => false

/-- `needle` is a leading segment of `hay` (character lists). -/
def listIsPfx : List Char → List Char → Bool
  | [], _ => true
  | _ :: _, [] => false
  | a :: as, b :: bs => a = b && listIsPfx as bs

/-- `needle` occurs as a contiguous run inside `hay` (character lists). -/
def listHasSub (needle : List Char) : List Char → Bool
  | [] => needle.isEmpty
  | c :: rest => listIsPfx needle (c :: rest) || listHasSub needle rest

/-- JS `String.prototype.includes` / CSS `[attr*="v"]` substring matching. -/
def strHasSub (hay needle : String) : Bool := listHasSub needle.toList hay.toList

/-- JS `String.prototype.startsWith`. -/
def strStartsWith (s p : String) : Bool := listIsPfx p.toList s.toList

/-- First-occurrence association-list lookup (JS object property access). -/
def assocLookup {β : Type _} (k : String) : List (String × β) → Option β
  | [] => none
  | (k', v) :: rest => if k = k' then some v else assocLookup k rest

/-- Leading and trailing whitespace removed (character lists). -/
def trimChars (cs : List Char) : List Char :=
  ((cs.dropWhile Char.isWhitespace).reverse.dropWhile Char.isWhitespace).reverse

/-- JS `String.prototype.trim`. -/
def strTrim (s : String) : String := String.mk (trimChars s.toList)

/-- Split a character list on a separator character (like `String.splitOn`
with a one-character separator). -/
def splitOnChar (sep : Char) : List Char → List (List Char)
  | [] => [[]]
  | c :: rest =>
      let r := splitOnChar sep rest
      if c = sep then [] :: r
      else
        match r with
        | h :: t => (c :: h) :: t
        | [] => [[c]]

/-! ## JSON-like runtime values

The validator builds its output as plain JS objects; we model them as a
JSON-like inductive. `undef` models a key that the source explicitly assigns
`undefined` (as the FAQPage builder does); numbers are modelled as rationals. -/

inductive Json where
  | str (s : String)
  | num (q : ℚ)
  | jsonBool (b : Bool)
  | null
  | undef
  | arr (elems : List Json)
  | obj (fields : List (String × Json))
  deriving Repr

/-- Is the value JS `null` or `undefined`? -/
def Json.isNullish : Json → Bool
  | .null => true
  | .undef => true
  | _ => false

mutual

/-- Does the value contain, at any depth, an object key whose value is
`null`/`undefined` (or a `null`/`undefined` array element)? -/
def jsonHasNullField : Json → Bool
  | .obj fs => fieldsHaveNull fs
  | .arr xs => elemsHaveNull xs
  | _ => false

/-- Helper for `jsonHasNullField` over object field lists. -/
def fieldsHaveNull : List (String × Json) → Bool
  | [] => false
  | (_, v) :: rest => v.isNullish || jsonHasNullField v || fieldsHaveNull rest

/-- Helper for `jsonHasNullField` over array element lists. -/
def elemsHaveNull : List Json → Bool
  | [] => false
  | v :: rest => v.isNullish || jsonHasNullField v || elemsHaveNull rest

end

/-- A nullable string field copied verbatim into a JS object
(null becomes JSON `null`). -/
def optStrToJson : Option String → Json
  | some s => .str s
  | none => .null

/-! ## Loosely-typed numeric fields -/

/-- `numericString` from `src/lib/schemas/definitions.ts`: the semantic model
may deliver a number or a string; `null` is the surrounding `Option`. -/
inductive NumStr where
  | num (q : ℚ)
  | str (s : String)
  deriving Repr, DecidableEq

/-- Modelled from the spec: JS `String(number)` conversion (external runtime
behavior), rendered as an optional sign followed by a decimal/quotient
rendering. No theorem depends on the exact rendering: `repairPrice` re-parses
whatever this returns, and its sign-dropping regex behaves the same on any
rendering. -/
def jsNumToString (q : ℚ) : String :=
  let sign := if q.num < 0 then "-" else ""
  if q.den = 1 then sign ++ toString q.num.natAbs
  else sign ++ toString q.num.natAbs ++ "/" ++ toString q.den

/-- JS `String(value)` on a number-or-string value. -/
def numStrToString : NumStr → String
  | .num q => jsNumToString q
  | .str s => s

/-! ## Repair Functions

`repairPrice` and `repairDate` are identical in
`src/src/lib/pipeline/validator.ts` (lines 40–53, 83–95) and
`src/unnamed/part_000`; `repairUrl` is taken from `src/unnamed/part_000`
lines 62–90, the revision with protocol-relative handling. -/

/-- Character class `[\d,]` of the price regex. -/
def isDigitOrComma (c : Char) : Bool := c.isDigit || c = ','

/-- The (greedy) match of `[\d,]+\.?\d*` starting at the head of `cs`,
assuming the head is a digit or comma. -/
def numericRunAt (cs : List Char) : List Char :=
  match cs.drop (cs.takeWhile isDigitOrComma).length with
  | c :: rest =>
      if c = '.' then cs.takeWhile isDigitOrComma ++ '.' :: rest.takeWhile Char.isDigit
      else cs.takeWhile isDigitOrComma
  | [] => cs.takeWhile isDigitOrComma

/-- `str.match(/[\d,]+\.?\d*/)`: leftmost match of the price regex. -/
def firstNumericRun : List Char → Option (List Char)
  | [] => none
  | c :: rest =>
      if isDigitOrComma c then some (numericRunAt (c :: rest))
      else firstNumericRun rest

/-- `replace(/,(?=\d{3})/g, '')`: drop every comma that is immediately
followed by at least three digits (thousands separators). -/
def stripGroupCommas : List Char → List Char
  | [] => []
  | c :: rest =>
      if c = ',' && (rest.take 3).length == 3 && (rest.take 3).all Char.isDigit
      then stripGroupCommas rest
      else c :: stripGroupCommas rest

/-- Non-global `replace(',', '.')`: replace only the first comma. -/
def replaceFirstComma : List Char → List Char
  | [] => []
  | c :: rest => if c = ',' then '.' :: rest else c :: replaceFirstComma rest

/-- Value of a digit run, most significant first. -/
def digitsVal (ds : List Char) : Nat :=
  ds.foldl (fun a c => 10 * a + (c.toNat - '0'.toNat)) 0

/-- The fractional-digit run of the numeric-literal head, if a dot follows
the integer digits. -/
def fracOf (cs : List Char) : List Char :=
  match cs.drop (cs.takeWhile Char.isDigit).length with
  | c :: rest => if c = '.' then rest.takeWhile Char.isDigit else []
  | [] => []

/-- Modelled from the spec: JS `parseFloat` (external runtime), restricted to
the character set that reaches it here (digits, dots, leftover commas): parse
the longest numeric-literal head `digits* ('.' digits*)?`; NaN — here `none` —
unless the head contains at least one digit. -/
def parseFloatQ (cs : List Char) : Option ℚ :=
  if (cs.takeWhile Char.isDigit).isEmpty && (fracOf cs).isEmpty then none
  else some ((digitsVal (cs.takeWhile Char.isDigit) : ℚ) +
    (digitsVal (fracOf cs) : ℚ) / (10 : ℚ) ^ (fracOf cs).length)

/-- `repairPrice` (validator.ts lines 40–53): extract a numeric value from a
price-like field, or `null` when nothing parses. -/
def repairPrice (value : Option NumStr) : Option ℚ :=
  match value with
  | none => none
  | some v =>
      match firstNumericRun (numStrToString v).toList with
      | some m => parseFloatQ (replaceFirstComma (stripGroupCommas m))
      | none => none

/-- Digit-run parse (`none` on empty or non-digit input). -/
def parseNatDigits (cs : List Char) : Option Nat :=
  if cs.isEmpty then none
  else if cs.all Char.isDigit then some (digitsVal cs) else none

/-- English month names recognized by the modelled date parser. -/
def monthNames : List (String × Nat) :=
  [("January", 1), ("February", 2), ("March", 3), ("April", 4),
   ("May", 5), ("June", 6), ("July", 7), ("August", 8),
   ("September", 9), ("October", 10), ("November", 11), ("December", 12)]

/-- Modelled from the spec: the JS `Date` parser (external runtime),
restricted to the calendar forms the spec exercises — `YYYY-MM-DD` and
`MonthName D, YYYY` — interpreted in UTC as `(year, month, day)`. Every other
string is an invalid date. -/
def jsDateParse (s : String) : Option (Nat × Nat × Nat) :=
  match splitOnChar '-' s.toList with
  | [y, m, d] =>
      match parseNatDigits y, parseNatDigits m, parseNatDigits d with
      | some yn, some mn, some dn =>
          if 1 ≤ mn ∧ mn ≤ 12 ∧ 1 ≤ dn ∧ dn ≤ 31 ∧ y.length = 4 then some (yn, mn, dn)
          else none
      | _, _, _ => none
  | _ =>
      match splitOnChar ' ' s.toList with
      | [mon, dayPart, yr] =>
          match assocLookup (String.mk mon) monthNames with
          | some mn =>
              match dayPart.reverse with
              | ',' :: dayRev =>
                  match parseNatDigits dayRev.reverse, parseNatDigits yr with
                  | some dn, some yn =>
                      if 1 ≤ dn ∧ dn ≤ 31 ∧ yr.length = 4 then some (yn, mn, dn) else none
                  | _, _ => none
              | _ => none
          | none => none
      | _ => none

/-- Zero-pad to two digits. -/
def pad2 (n : Nat) : String := if n < 10 then "0" ++ toString n else toString n

/-- Zero-pad to four digits. -/
def pad4 (n : Nat) : String :=
  if n < 10 then "000" ++ toString n
  else if n < 100 then "00" ++ toString n
  else if n < 1000 then "0" ++ toString n
  else toString n

/-- `toISOString().split('T')[0]`: the calendar-date slice `YYYY-MM-DD`. -/
def isoDateString (y m d : Nat) : String := pad4 y ++ "-" ++ pad2 m ++ "-" ++ pad2 d

/-- `repairDate` (validator.ts lines 83–95): normalize a date to `YYYY-MM-DD`
when it parses; hand the raw string back otherwise. Note `if (!date)` is taken
for the empty string too, so `""` yields `null`, not `""`. -/
def repairDate (date : Option String) : Option String :=
  match date with
  | none => none
  | some d =>
      if d = "" then none
      else
        match jsDateParse d with
        | some (y, m, dd) => some (isoDateString y m dd)
        | none => some d

/-- Split a character list at the first occurrence of `"://"` into the
scheme part and the remainder. -/
def splitScheme : List Char → Option (List Char × List Char)
  | [] => none
  | c :: rest =>
      if listIsPfx [':', '/', '/'] (c :: rest) then some ([], rest.drop 2)
      else
        match splitScheme rest with
        | some (sch, after) => some (c :: sch, after)
        | none => none

/-- Modelled from the spec: WHATWG `new URL(input)` well-formedness (external
runtime), simplified — valid when there is an alphabetic nonempty scheme,
`"://"`, and a nonempty host free of spaces. -/
def isValidUrl (s : String) : Bool :=
  match splitScheme s.toList with
  | some (scheme, rest) =>
      let host := rest.takeWhile (fun c => c ≠ '/' && c ≠ '?' && c ≠ '#')
      !scheme.isEmpty && scheme.all Char.isAlpha && !host.isEmpty &&
        host.all (fun c => c ≠ ' ')
  | none => false

/-- The directory part of a path: everything up to and including the last
slash (used by relative-URL resolution). -/
def dirOf (p : List Char) : List Char :=
  let after := p.reverse.dropWhile (fun c => c ≠ '/')
  if after.isEmpty then ['/'] else after.reverse

/-- Modelled from the spec: WHATWG relative-URL resolution `new URL(rel, base)`
(external runtime), simplified to the shapes the validator meets:
absolute inputs stand alone; protocol-relative inputs adopt the base's scheme;
root-relative paths replace the base's path; other nonempty inputs replace the
last segment of the base's path. `none` where the parse would throw. -/
def resolveUrl (rel : String) (base : String) : Option String :=
  if isValidUrl rel then some rel
  else if ¬ isValidUrl base then none
  else
    match splitScheme base.toList with
    | some (scheme, rest) =>
        let host := rest.takeWhile (fun c => c ≠ '/' && c ≠ '?' && c ≠ '#')
        if strStartsWith rel "//" then
          let adopted := String.mk (scheme ++ [':']) ++ rel
          if isValidUrl adopted then some adopted else none
        else if strStartsWith rel "/" then
          some (String.mk (scheme ++ [':', '/', '/'] ++ host) ++ rel)
        else if rel = "" then some base
        else
          some (String.mk (scheme ++ [':', '/', '/'] ++ host ++
            dirOf (rest.drop host.length)) ++ rel)
    | none => none

/-- `repairUrl` (src/unnamed/part_000 lines 62–90): absolutize a URL.
Protocol-relative URLs get `https:` prepended; absolute URLs are validated and
returned; relative URLs resolve against `baseUrl` when supplied; everything
else — and every parse that would throw — is `null`. Total by construction
(the source's `try`/`catch` means it never throws). -/
def repairUrl (url : Option String) (baseUrl : Option String) : Option String :=
  match url with
  | none => none
  | some u =>
      if u = "" then none
      else if strStartsWith u "//" then
        let absolute := "https:" ++ u
        if isValidUrl absolute then some absolute else none
      else if strStartsWith u "http://" || strStartsWith u "https://" then
        if isValidUrl u then some u else none
      else
        match baseUrl with
        | some b => resolveUrl u b
        | none => none

/-! ## Candidate-entity data model

Mirrors the runtime shape of `ExtractionResult`
(`src/lib/schemas/definitions.ts`): every known field is present with a
possibly-null value (`Option`), `detectedType` is the raw string tag. Each
record carries the fields that the validator
(`src/src/lib/pipeline/validator.ts`) reads. -/

structure Brand where
  name : Option String
  deriving Repr

structure ProductOffer where
  price : Option NumStr
  priceCurrency : Option String
  availability : Option String
  url : Option String
  deriving Repr

structure AggregateRating where
  ratingValue : Option NumStr
  reviewCount : Option NumStr
  deriving Repr

structure Product where
  name : Option String
  description : Option String
  image : Option (List String)
  sku : Option String
  gtin : Option String
  brand : Option Brand
  offers : Option ProductOffer
  aggregateRating : Option AggregateRating
  deriving Repr

/-- `personOrOrg` author object. -/
structure PersonRef where
  type : Option String
  name : Option String
  deriving Repr

structure Nutrition where
  calories : Option String
  proteinContent : Option String
  deriving Repr

structure RecipeStep where
  text : Option String
  deriving Repr

structure Recipe where
  name : Option String
  image : Option (List String)
  author : Option PersonRef
  datePublished : Option String
  prepTime : Option String
  cookTime : Option String
  totalTime : Option String
  recipeYield : Option String
  nutrition : Option Nutrition
  recipeIngredient : Option (List String)
  recipeInstructions : Option (List RecipeStep)
  deriving Repr

structure EventAddress where
  streetAddress : Option String
  addressLocality : Option String
  addressCountry : Option String
  deriving Repr

structure EventLocation where
  name : Option String
  address : Option EventAddress
  deriving Repr

structure EventOffer where
  price : Option NumStr
  priceCurrency : Option String
  url : Option String
  deriving Repr

structure EventData where
  name : Option String
  startDate : Option String
  endDate : Option String
  eventStatus : Option String
  location : Option EventLocation
  offers : Option EventOffer
  deriving Repr

structure BizAddress where
  streetAddress : Option String
  addressLocality : Option String
  addressRegion : Option String
  postalCode : Option String
  deriving Repr

structure Geo where
  latitude : Option NumStr
  longitude : Option NumStr
  deriving Repr

structure LocalBusiness where
  name : Option String
  image : Option (List String)
  telephone : Option String
  address : Option BizAddress
  geo : Option Geo
  openingHours : Option (List String)
  priceRange : Option String
  deriving Repr

/-- Publisher object. The Zod schema declares no `type` key, so at runtime
`a.publisher.type` is always `undefined`; the field is kept here so the
builder can mirror the source's `a.publisher.type || 'Organization'`. -/
structure Publisher where
  type : Option String
  name : Option String
  deriving Repr

structure Article where
  headline : Option String
  image : Option (List String)
  author : Option PersonRef
  publisher : Option Publisher
  datePublished : Option String
  dateModified : Option String
  description : Option String
  deriving Repr

structure FAQAnswer where
  text : Option String
  deriving Repr

structure FAQQuestion where
  name : Option String
  acceptedAnswer : Option FAQAnswer
  deriving Repr

structure FAQ where
  mainEntity : Option (List FAQQuestion)
  deriving Repr

structure HowToStep where
  name : Option String
  text : Option String
  url : Option String
  image : Option String
  deriving Repr

structure HowToTool where
  name : Option String
  deriving Repr

structure HowToSupply where
  name : Option String
  deriving Repr

structure HowTo where
  name : Option String
  step : Option (List HowToStep)
  totalTime : Option String
  tool : Option (List HowToTool)
  supply : Option (List HowToSupply)
  deriving Repr

structure WebPage where
  name : Option String
  description : Option String
  datePublished : Option String
  dateModified : Option String
  breadcrumb : Option (List String)
  deriving Repr

/-- The master container delivered to the validator. -/
structure ExtractionResult where
  detectedType : String
  product : Option Product := none
  recipe : Option Recipe := none
  event : Option EventData := none
  localBusiness : Option LocalBusiness := none
  faq : Option FAQ := none
  article : Option Article := none
  blogPosting : Option Article := none
  howto : Option HowTo := none
  webPage : Option WebPage := none
  deriving Repr

/-! ## Required-field policy (validator.ts lines 24–35 and 334–368) -/

/-- `REQUIRED_FIELDS`: required fields per schema type. -/
def REQUIRED_FIELDS : List (String × List String) :=
  [("Product", ["name"]), ("Recipe", ["name"]), ("Event", ["name", "startDate"]),
   ("LocalBusiness", ["name"]), ("Article", ["headline"]), ("BlogPosting", ["headline"]),
   ("FAQPage", ["mainEntity"]), ("HowTo", ["name"]), ("WebPage", ["name"])]

/-- `REQUIRED_FIELDS[type] || []`: permissive fallback for unknown types. -/
def requiredFieldsFor (ty : String) : List String :=
  (assocLookup ty REQUIRED_FIELDS).getD []

/-- The view of a field value that the required-field loop inspects:
null-or-undefined, a string, or an array with its length. -/
inductive FieldVal where
  | nullv
  | strv (s : String)
  | arrv (n : Nat)
  deriving Repr

/-- A nullable string field, as the loop sees it. -/
def optStrField : Option String → FieldVal
  | some s => .strv s
  | none => .nullv

/-- The per-type data object picked by the `switch` in `checkRequiredFields`. -/
inductive SchemaData where
  | product (p : Product)
  | recipe (r : Recipe)
  | event (e : EventData)
  | localBusiness (b : LocalBusiness)
  | article (a : Article)
  | faq (f : FAQ)
  | howto (h : HowTo)
  | webPage (w : WebPage)

/-- `schemaData[field]` for the fields the static required-field table can
name; any other field is absent (`undefined`). -/
def SchemaData.getField : SchemaData → String → FieldVal
  | .product p, f => if f = "name" then optStrField p.name else .nullv
  | .recipe r, f => if f = "name" then optStrField r.name else .nullv
  | .event e, f =>
      if f = "name" then optStrField e.name
      else if f = "startDate" then optStrField e.startDate
      else .nullv
  | .localBusiness b, f => if f = "name" then optStrField b.name else .nullv
  | .article a, f => if f = "headline" then optStrField a.headline else .nullv
  | .faq fq, f =>
      if f = "mainEntity" then
        match fq.mainEntity with
        | some l => .arrv l.length
        | none => .nullv
      else .nullv
  | .howto h, f => if f = "name" then optStrField h.name else .nullv
  | .webPage w, f => if f = "name" then optStrField w.name else .nullv

/-- The `switch (type)` of `checkRequiredFields`: unknown types leave
`schemaData` null. -/
def schemaDataOf (d : ExtractionResult) : Option SchemaData :=
  if d.detectedType = "Product" then d.product.map .product
  else if d.detectedType = "Recipe" then d.recipe.map .recipe
  else if d.detectedType = "Event" then d.event.map .event
  else if d.detectedType = "LocalBusiness" then d.localBusiness.map .localBusiness
  else if d.detectedType = "Article" then d.article.map .article
  else if d.detectedType = "BlogPosting" then d.blogPosting.map .article
  else if d.detectedType = "FAQPage" then d.faq.map .faq
  else if d.detectedType = "HowTo" then d.howto.map .howto
  else if d.detectedType = "WebPage" then d.webPage.map .webPage
  else none

/-- The `for (const field of required)` loop: first missing/empty required
field wins. -/
def checkFieldsLoop (ty : String) (get : String → FieldVal) : List String → Option String
  | [] => none
  | f :: rest =>
      match get f with
      | .nullv => some ("Missing required field: " ++ ty ++ "." ++ f)
      | .strv s =>
          if s = "" then some ("Missing required field: " ++ ty ++ "." ++ f)
          else checkFieldsLoop ty get rest
      | .arrv n =>
          if n = 0 then some ("Empty required field: " ++ ty ++ "." ++ f)
          else checkFieldsLoop ty get rest

/-- `checkRequiredFields` (validator.ts lines 334–368). -/
def checkRequiredFields (d : ExtractionResult) : Option String :=
  let ty := d.detectedType
  let required := requiredFieldsFor ty
  match schemaDataOf d with
  | none => some ("Missing " ++ ty ++ " data object")
  | some sd => checkFieldsLoop ty sd.getField required

/-! ## JSON-LD construction (validator.ts lines 100–329) -/

/-- `if (x) jsonLd.key = x` for a nullable string field. -/
def addTruthyStr (fs : List (String × Json)) (key : String) (v : Option String) :
    List (String × Json) :=
  match v with
  | some s => if s ≠ "" then fs ++ [(key, .str s)] else fs
  | none => fs

/-- `if (xs?.length) jsonLd.key = xs` for a nullable string array. -/
def addNonemptyStrList (fs : List (String × Json)) (key : String)
    (v : Option (List String)) : List (String × Json) :=
  match v with
  | some l => if l.length ≠ 0 then fs ++ [(key, .arr (l.map Json.str))] else fs
  | none => fs

/-- JS `a || b` on a nullable string (falsy: null/undefined and `""`). -/
def jsOrStr (v : Option String) (dflt : String) : String :=
  match v with
  | some s => if s = "" then dflt else s
  | none => dflt

/-- The Offer sub-object of the Product case (lines 122–133), threading the
repairs audit log. -/
def buildOfferProduct (off : ProductOffer) (repairs : List String) :
    List (String × Json) × List String :=
  let offer := [("@type", Json.str "Offer")]
  let (offer, repairs) :=
    match repairPrice off.price with
    | some pr =>
        (offer ++ [("price", Json.num pr)],
         repairs ++ ["Repaired price: " ++
           (match off.price with | some v => numStrToString v | none => "null") ++
           " → " ++ jsNumToString pr])
    | none => (offer, repairs)
  let offer := addTruthyStr offer "priceCurrency" off.priceCurrency
  let offer := addTruthyStr offer "availability" off.availability
  let offer := addTruthyStr offer "url" off.url
  (offer, repairs)

/-- `if (p.brand?.name)`: add the Brand sub-object (line 120). -/
def addBrandField (fs : List (String × Json)) (b : Option Brand) : List (String × Json) :=
  match b with
  | some br =>
      match br.name with
      | some bn =>
          if bn ≠ "" then
            fs ++ [("brand", Json.obj [("@type", Json.str "Brand"), ("name", Json.str bn)])]
          else fs
      | none => fs
  | none => fs

/-- `if (p.offers)`: build and attach the Offer sub-object (lines 122–133). -/
def addProductOffers (fs : List (String × Json)) (off : Option ProductOffer)
    (repairs : List String) : List (String × Json) × List String :=
  match off with
  | some o =>
      let (offer, repairs') := buildOfferProduct o repairs
      (fs ++ [("offers", Json.obj offer)], repairs')
  | none => (fs, repairs)

/-- `if (p.aggregateRating)`: build and attach the AggregateRating sub-object
(lines 135–142), with `Math.floor` on the review count. -/
def addAggregateRatingField (fs : List (String × Json)) (ar : Option AggregateRating) :
    List (String × Json) :=
  match ar with
  | some a =>
      let rating := [("@type", Json.str "AggregateRating")]
      let rating :=
        match repairPrice a.ratingValue with
        | some rv => rating ++ [("ratingValue", Json.num rv)]
        | none => rating
      let rating :=
        match repairPrice a.reviewCount with
        | some rc => rating ++ [("reviewCount", Json.num (⌊rc⌋ : ℚ))]
        | none => rating
      fs ++ [("aggregateRating", Json.obj rating)]
  | none => fs

/-- The Product case (lines 109–145). -/
def buildProduct (base : List (String × Json)) (p : Product) (repairs : List String) :
    Json × List String :=
  let fs := addTruthyStr base "name" p.name
  let fs := addTruthyStr fs "description" p.description
  let fs := addNonemptyStrList fs "image" p.image
  let fs := addTruthyStr fs "sku" p.sku
  let fs := addTruthyStr fs "gtin" p.gtin
  let fs := addBrandField fs p.brand
  let (fs, repairs) := addProductOffers fs p.offers repairs
  let fs := addAggregateRatingField fs p.aggregateRating
  (Json.obj fs, repairs)

/-- The Recipe case (lines 147–178). -/
def buildRecipe (base : List (String × Json)) (r : Recipe) (repairs : List String) :
    Json × List String :=
  let fs := addTruthyStr base "name" r.name
  let fs := addNonemptyStrList fs "image" r.image
  let fs :=
    match r.author with
    | some a =>
        match a.name with
        | some an =>
            if an ≠ "" then
              fs ++ [("author", Json.obj
                [("@type", Json.str (jsOrStr a.type "Person")), ("name", Json.str an)])]
            else fs
        | none => fs
    | none => fs
  let (fs, repairs) :=
    match r.datePublished with
    | some dp =>
        if dp ≠ "" then
          (fs ++ [("datePublished", optStrToJson (repairDate (some dp)))],
           repairs ++ ["Repaired datePublished to ISO format"])
        else (fs, repairs)
    | none => (fs, repairs)
  let fs := addTruthyStr fs "prepTime" r.prepTime
  let fs := addTruthyStr fs "cookTime" r.cookTime
  let fs := addTruthyStr fs "totalTime" r.totalTime
  let fs := addTruthyStr fs "recipeYield" r.recipeYield
  let fs :=
    match r.nutrition with
    | some n =>
        fs ++ [("nutrition", Json.obj
          [("@type", Json.str "NutritionInformation"),
           ("calories", optStrToJson n.calories),
           ("proteinContent", optStrToJson n.proteinContent)])]
    | none => fs
  let fs :=
    match r.recipeIngredient with
    | some l =>
        if l.length ≠ 0 then fs ++ [("recipeIngredient", Json.arr (l.map Json.str))] else fs
    | none => fs
  let fs :=
    match r.recipeInstructions with
    | some steps =>
        if steps.length ≠ 0 then
          fs ++ [("recipeInstructions", Json.arr (steps.map (fun st =>
            Json.obj [("@type", Json.str "HowToStep"), ("text", optStrToJson st.text)])))]
        else fs
    | none => fs
  (Json.obj fs, repairs)

/-- The Event case (lines 180–208). -/
def buildEvent (base : List (String × Json)) (e : EventData) : Json :=
  let fs := addTruthyStr base "name" e.name
  let fs :=
    match e.startDate with
    | some sd =>
        if sd ≠ "" then fs ++ [("startDate", optStrToJson (repairDate (some sd)))] else fs
    | none => fs
  let fs :=
    match e.endDate with
    | some ed =>
        if ed ≠ "" then fs ++ [("endDate", optStrToJson (repairDate (some ed)))] else fs
    | none => fs
  let fs := addTruthyStr fs "eventStatus" e.eventStatus
  let fs :=
    match e.location with
    | some loc =>
        let lfs := [("@type", Json.str "Place")]
        let lfs := addTruthyStr lfs "name" loc.name
        let lfs :=
          match loc.address with
          | some ad =>
              lfs ++ [("address", Json.obj
                [("@type", Json.str "PostalAddress"),
                 ("streetAddress", optStrToJson ad.streetAddress),
                 ("addressLocality", optStrToJson ad.addressLocality),
                 ("addressCountry", optStrToJson ad.addressCountry)])]
          | none => lfs
        fs ++ [("location", Json.obj lfs)]
    | none => fs
  let fs :=
    match e.offers with
    | some off =>
        let ofs := [("@type", Json.str "Offer")]
        let ofs :=
          match repairPrice off.price with
          | some pr => ofs ++ [("price", Json.num pr)]
          | none => ofs
        let ofs := addTruthyStr ofs "priceCurrency" off.priceCurrency
        let ofs := addTruthyStr ofs "url" off.url
        fs ++ [("offers", Json.obj ofs)]
    | none => fs
  Json.obj fs

/-- `if (b.address)`: attach the PostalAddress sub-object (lines 219–221);
the spread copies the nullable subfields verbatim. -/
def addBizAddress (fs : List (String × Json)) (ad : Option BizAddress) :
    List (String × Json) :=
  match ad with
  | some a =>
      fs ++ [("address", Json.obj
        [("@type", Json.str "PostalAddress"),
         ("streetAddress", optStrToJson a.streetAddress),
         ("addressLocality", optStrToJson a.addressLocality),
         ("addressRegion", optStrToJson a.addressRegion),
         ("postalCode", optStrToJson a.postalCode)])]
  | none => fs

/-- `if (b.geo)` (lines 222–228): both coordinates go through
`repairPrice`; the geo object is emitted only if both repair. -/
def addGeoField (fs : List (String × Json)) (g : Option Geo) : List (String × Json) :=
  match g with
  | some geo =>
      match repairPrice geo.latitude, repairPrice geo.longitude with
      | some lat, some lng =>
          fs ++ [("geo", Json.obj
            [("@type", Json.str "GeoCoordinates"),
             ("latitude", Json.num lat), ("longitude", Json.num lng)])]
      | _, _ => fs
  | none => fs

/-- `if (b.openingHours?.length) ...` (line 229). -/
def addOpeningHours (fs : List (String × Json)) (oh : Option (List String)) :
    List (String × Json) :=
  match oh with
  | some l =>
      if l.length ≠ 0 then
        fs ++ [("openingHoursSpecification", Json.arr (l.map Json.str))]
      else fs
  | none => fs

/-- The LocalBusiness case (lines 210–233). -/
def buildLocalBusiness (base : List (String × Json)) (b : LocalBusiness) : Json :=
  let fs := addTruthyStr base "name" b.name
  let fs := addNonemptyStrList fs "image" b.image
  let fs := addTruthyStr fs "telephone" b.telephone
  let fs := addBizAddress fs b.address
  let fs := addGeoField fs b.geo
  let fs := addOpeningHours fs b.openingHours
  let fs := addTruthyStr fs "priceRange" b.priceRange
  Json.obj fs

/-- The Article / BlogPosting case (lines 235–255). -/
def buildArticle (base : List (String × Json)) (a : Article) : Json :=
  let fs := addTruthyStr base "headline" a.headline
  let fs := addNonemptyStrList fs "image" a.image
  let fs :=
    match a.author with
    | some au =>
        match au.name with
        | some an =>
            if an ≠ "" then
              fs ++ [("author", Json.obj
                [("@type", Json.str (jsOrStr au.type "Person")), ("name", Json.str an)])]
            else fs
        | none => fs
    | none => fs
  let fs :=
    match a.publisher with
    | some pub =>
        match pub.name with
        | some pn =>
            if pn ≠ "" then
              fs ++ [("publisher", Json.obj
                [("@type", Json.str (jsOrStr pub.type "Organization")),
                 ("name", Json.str pn)])]
            else fs
        | none => fs
    | none => fs
  let fs :=
    match a.datePublished with
    | some dp =>
        if dp ≠ "" then fs ++ [("datePublished", optStrToJson (repairDate (some dp)))] else fs
    | none => fs
  let fs :=
    match a.dateModified with
    | some dm =>
        if dm ≠ "" then fs ++ [("dateModified", optStrToJson (repairDate (some dm)))] else fs
    | none => fs
  let fs := addTruthyStr fs "description" a.description
  Json.obj fs

/-- The FAQPage case (lines 257–275): question `name` is copied verbatim
(possibly null); a missing `acceptedAnswer` is assigned `undefined`. -/
def buildFAQ (base : List (String × Json)) (f : FAQ) : Json :=
  let fs :=
    match f.mainEntity with
    | some qs =>
        if qs.length ≠ 0 then
          base ++ [("mainEntity", Json.arr (qs.map (fun q =>
            Json.obj
              [("@type", Json.str "Question"),
               ("name", optStrToJson q.name),
               ("acceptedAnswer",
                 match q.acceptedAnswer with
                 | some ans => Json.obj
                     [("@type", Json.str "Answer"), ("text", optStrToJson ans.text)]
                 | none => Json.undef)])))]
        else base
    | none => base
  Json.obj fs

/-- The HowTo case (lines 277–302): step `name`/`text`/`url`/`image` are
copied verbatim (possibly null). -/
def buildHowTo (base : List (String × Json)) (h : HowTo) : Json :=
  let fs := addTruthyStr base "name" h.name
  let fs := addTruthyStr fs "totalTime" h.totalTime
  let fs :=
    match h.step with
    | some steps =>
        if steps.length ≠ 0 then
          fs ++ [("step", Json.arr (steps.map (fun s =>
            Json.obj
              [("@type", Json.str "HowToStep"),
               ("name", optStrToJson s.name),
               ("text", optStrToJson s.text),
               ("url", optStrToJson s.url),
               ("image", optStrToJson s.image)])))]
        else fs
    | none => fs
  let fs :=
    match h.tool with
    | some ts =>
        if ts.length ≠ 0 then
          fs ++ [("tool", Json.arr (ts.map (fun t =>
            Json.obj [("@type", Json.str "HowToTool"), ("name", optStrToJson t.name)])))]
        else fs
    | none => fs
  let fs :=
    match h.supply with
    | some ss =>
        if ss.length ≠ 0 then
          fs ++ [("supply", Json.arr (ss.map (fun s =>
            Json.obj [("@type", Json.str "HowToSupply"), ("name", optStrToJson s.name)])))]
        else fs
    | none => fs
  Json.obj fs

/-- The WebPage / default case (lines 304–327). -/
def buildWebPage (base : List (String × Json)) (w : WebPage) : Json :=
  let fs := addTruthyStr base "name" w.name
  let fs := addTruthyStr fs "description" w.description
  let fs :=
    match w.datePublished with
    | some dp =>
        if dp ≠ "" then fs ++ [("datePublished", optStrToJson (repairDate (some dp)))] else fs
    | none => fs
  let fs :=
    match w.dateModified with
    | some dm =>
        if dm ≠ "" then fs ++ [("dateModified", optStrToJson (repairDate (some dm)))] else fs
    | none => fs
  let fs :=
    match w.breadcrumb with
    | some l =>
        if l.length ≠ 0 then
          fs ++ [("breadcrumb", Json.obj
            [("@type", Json.str "BreadcrumbList"),
             ("itemListElement", Json.arr (l.enum.map (fun (p : Nat × String) =>
               Json.obj
                 [("@type", Json.str "ListItem"),
                  ("position", Json.num ((p.1 + 1 : Nat) : ℚ)),
                  ("name", Json.str p.2)])))])]
        else fs
    | none => fs
  Json.obj fs

/-- `buildJsonLd` (validator.ts lines 100–329): dispatch on the detected type;
a missing per-type data object yields the bare envelope. The source's
`case 'WebPage': default:` share the final branch. -/
def buildJsonLd (d : ExtractionResult) (repairs : List String) : Json × List String :=
  let ty := d.detectedType
  let base := [("@context", Json.str "https://schema.org"), ("@type", Json.str ty)]
  if ty = "Product" then
    match d.product with
    | none => (Json.obj base, repairs)
    | some p => buildProduct base p repairs
  else if ty = "Recipe" then
    match d.recipe with
    | none => (Json.obj base, repairs)
    | some r => buildRecipe base r repairs
  else if ty = "Event" then
    match d.event with
    | none => (Json.obj base, repairs)
    | some e => (buildEvent base e, repairs)
  else if ty = "LocalBusiness" then
    match d.localBusiness with
    | none => (Json.obj base, repairs)
    | some b => (buildLocalBusiness base b, repairs)
  else if ty = "Article" then
    match d.article with
    | none => (Json.obj base, repairs)
    | some a => (buildArticle base a, repairs)
  else if ty = "BlogPosting" then
    match d.blogPosting with
    | none => (Json.obj base, repairs)
    | some a => (buildArticle base a, repairs)
  else if ty = "FAQPage" then
    match d.faq with
    | none => (Json.obj base, repairs)
    | some f => (buildFAQ base f, repairs)
  else if ty = "HowTo" then
    match d.howto with
    | none => (Json.obj base, repairs)
    | some h => (buildHowTo base h, repairs)
  else
    match d.webPage with
    | none => (Json.obj base, repairs)
    | some w => (buildWebPage base w, repairs)

/-! ## The per-entity validator (validator.ts lines 373–438) -/

/-- The `detectedType` enum of `ExtractionSchema`. -/
def detectedTypeEnum : List String :=
  ["Product", "Recipe", "Event", "LocalBusiness", "FAQPage",
   "Article", "BlogPosting", "HowTo", "WebPage"]

/-- The `availability` enum of `OfferSchema`
(`src/lib/schemas/definitions.ts`). -/
def availabilityEnum : List String :=
  ["https://schema.org/InStock", "https://schema.org/OutOfStock",
   "https://schema.org/PreOrder", "https://schema.org/SoldOut",
   "https://schema.org/BackOrder", "https://schema.org/Discontinued",
   "https://schema.org/LimitedAvailability"]

/-- The `eventStatus` enum of `EventSchema`. -/
def eventStatusEnum : List String :=
  ["https://schema.org/EventScheduled", "https://schema.org/EventCancelled",
   "https://schema.org/EventMovedOnline", "https://schema.org/EventPostponed"]

/-- A nullable `z.string().url()` field: null passes, a string must be a
well-formed URL (Zod's check attempts `new URL`, modelled by `isValidUrl`). -/
def urlIssue (path : String) (u : Option String) : List String :=
  match u with
  | some s => if isValidUrl s then [] else [path ++ ": Invalid url"]
  | none => []

/-- A nullable `z.enum([...])` field: null passes, a string must be one of
the allowed values. -/
def enumIssue (path : String) (v : Option String) (allowed : List String) : List String :=
  match v with
  | some s => if allowed.contains s then [] else [path ++ ": Invalid enum value"]
  | none => []

/-- The `personOrOrg` author object: its `type` must be Person/Organization
or null. -/
def personTypeIssue (path : String) (pr : Option PersonRef) : List String :=
  match pr with
  | some a => enumIssue (path ++ ".type") a.type ["Person", "Organization"]
  | none => []

/-- `urlString` issues of a HowTo step list (`url` and `image`). -/
def howtoStepIssues : List HowToStep → List String
  | [] => []
  | s :: rest =>
      urlIssue "howto.step.url" s.url ++ urlIssue "howto.step.image" s.image ++
        howtoStepIssues rest

/-- Modelled from the spec: the issue list of `ExtractionSchema.safeParse`
(the schema itself is src/src/lib/schemas/definitions.ts; Zod's runtime
checking is the external part being modelled). On data shaped like this
embedding, the checkable constraints are: `detectedType` in its enum, every
modelled `urlString` field (Product/Event `offers.url`, HowTo step
`url`/`image`) null or a well-formed URL, and every modelled enum field
(`offers.availability`, `eventStatus`, author `type`) null or a member.
Fields of the schema the embedding does not carry are taken as null, which
their nullable declarations accept; unknown keys (such as `publisher.type`)
are stripped, not rejected, by Zod, and `validate` keeps using the original
`data` object. Issue paths/messages are abbreviated forms of Zod's. -/
def zodIssues (d : ExtractionResult) : List String :=
  (if detectedTypeEnum.contains d.detectedType then []
   else ["detectedType: Invalid enum value"]) ++
  (match d.product with
   | some p =>
       (match p.offers with
        | some off =>
            enumIssue "product.offers.availability" off.availability availabilityEnum ++
              urlIssue "product.offers.url" off.url
        | none => [])
   | none => []) ++
  (match d.recipe with
   | some r => personTypeIssue "recipe.author" r.author
   | none => []) ++
  (match d.event with
   | some e =>
       enumIssue "event.eventStatus" e.eventStatus eventStatusEnum ++
         (match e.offers with
          | some off => urlIssue "event.offers.url" off.url
          | none => [])
   | none => []) ++
  (match d.article with
   | some a => personTypeIssue "article.author" a.author
   | none => []) ++
  (match d.blogPosting with
   | some a => personTypeIssue "blogPosting.author" a.author
   | none => []) ++
  (match d.howto with
   | some h =>
       (match h.step with
        | some steps => howtoStepIssues steps
        | none => [])
   | none => [])

/-- The Zod gate: `none` when `safeParse` succeeds, otherwise the joined
`Schema validation failed` reason (validator.ts lines 384–394). -/
def zodCheck (d : ExtractionResult) : Option String :=
  match zodIssues d with
  | [] => none
  | errs => some ("Schema validation failed: " ++ String.intercalate "; " errs)

/-- Outcome of `validate`: `ValidationSuccess` or `ValidationError`. -/
inductive ValidateResult where
  | ok (jsonLd : Json) (detectedType : String) (repairs : List String)
  | err (reason : String)
  deriving Repr

/-- `validate` (validator.ts lines 373–438): Zod gate, required-field check,
then JSON-LD construction with a fresh repairs log. -/
def validate (d : ExtractionResult) : ValidateResult :=
  match zodCheck d with
  | some reason => .err reason
  | none =>
      match checkRequiredFields d with
      | some reason => .err reason
      | none =>
          let (j, repairs) := buildJsonLd d []
          .ok j d.detectedType repairs

/-- Did `validate` accept? -/
def isOk : ValidateResult → Bool
  | .ok _ _ _ => true
  | .err _ => false

/-- The built record of an accepted result (JSON `null` on a rejection, which
no theorem relies on). -/
def jsonOfResult : ValidateResult → Json
  | .ok j _ _ => j
  | .err _ => Json.null

/-! ## The multi-entity batch validator -/

/-- A dropped candidate: its type tag and a human-readable reason. -/
structure RejectedEntity where
  type : String
  reason : String
  deriving Repr

/-- The success payload of the batch validator. -/
structure MultiValidationSuccess where
  acceptedEntities : List Json
  rejectedEntities : List RejectedEntity
  entityTypes : List String
  repairs : List String
  deriving Repr

/-- Batch outcome. -/
inductive MultiValidationResult where
  | success (report : MultiValidationSuccess)
  | failure (reason : String)
  deriving Repr

/-- One step of the batch fold: route the candidate's `validate` outcome into
the accepted or rejected column. -/
def multiStep (acc : List Json × List RejectedEntity × List String × List String)
    (c : ExtractionResult) : List Json × List RejectedEntity × List String × List String :=
  let (accepted, rejected, types, repairs) := acc
  match validate c with
  | .ok j ty reps => (accepted ++ [j], rejected, types ++ [ty], repairs ++ reps)
  | .err r => (accepted, rejected ++ [⟨c.detectedType, r⟩], types, repairs)

/-- Modelled from the spec: `validateMultiEntity` — the multi-entity validator
that the pipeline runner imports (src/src/lib/pipeline/index.ts) but whose
definition is absent from src/. Per spec §4.5 it validates each candidate in
input order (per-candidate validation reuses the source's `validate`),
collects accepted records and `RejectedEntity{type, reason}` rejections
without dropping any, and the batch fails with reason "no valid entities"
exactly when no candidate is accepted. -/
def validateMultiEntity (candidates : List ExtractionResult) : MultiValidationResult :=
  match candidates.foldl multiStep ([], [], [], []) with
  | (accepted, rejected, types, repairs) =>
      if accepted.isEmpty then .failure "no valid entities"
      else .success ⟨accepted, rejected, types, repairs⟩

/-- The records of the candidates `validate` accepts, in input order. -/
def acceptedOf : List ExtractionResult → List Json
  | [] => []
  | c :: rest =>
      (match validate c with
       | .ok j _ _ => [j]
       | .err _ => []) ++ acceptedOf rest

/-- The rejections of the candidates `validate` drops, in input order, with
their reasons — nothing is dropped. -/
def rejectedOf : List ExtractionResult → List RejectedEntity
  | [] => []
  | c :: rest =>
      (match validate c with
       | .err r => [⟨c.detectedType, r⟩]
       | .ok _ _ _ => []) ++ rejectedOf rest

/-- The detected types of accepted candidates, in input order. -/
def typesOf : List ExtractionResult → List String
  | [] => []
  | c :: rest =>
      (match validate c with
       | .ok _ ty _ => [ty]
       | .err _ => []) ++ typesOf rest

/-- The concatenated repair logs of accepted candidates, in input order. -/
def repairsOf : List ExtractionResult → List String
  | [] => []
  | c :: rest =>
      (match validate c with
       | .ok _ _ reps => reps
       | .err _ => []) ++ repairsOf rest

/-! ## DOM model

The Cleaner and Flattener operate on the tree that jsdom parses from the raw
markup. The parse itself is external library code; the embedding takes the
parsed body tree as input. Tag names are lowercase (jsdom's `tagName` is
uppercase; the embedding normalizes to lowercase throughout, matching the
case-insensitive selector semantics). -/

inductive DomNode where
  | text (s : String)
  | elem (tag : String) (attrs : List (String × String)) (children : List DomNode)
  deriving Repr

/-- The whitespace-separated tokens of a `class` attribute (modelling CSS
class matching; the model splits on the space character). -/
def classTokens (cls : String) : List String :=
  ((splitOnChar ' ' cls.toList).map String.mk).filter (fun t => t ≠ "")

/-- The selector shapes occurring in the Cleaner's static rule lists. -/
inductive Selector where
  | tag (t : String)
  | attrPresent (a : String)
  | attrEq (a v : String)
  | attrSub (a v : String)
  | cls (c : String)
  | clsSub (sub : String)
  | idSel (i : String)
  | tagNotAttrEq (t a v : String)
  | tagAttrEq (t a v : String)
  deriving Repr

/-- CSS matching of one selector against one element. -/
def matchesSel (tag : String) (attrs : List (String × String)) : Selector → Bool
  | .tag t => tag = t
  | .attrPresent a => (assocLookup a attrs).isSome
  | .attrEq a v => assocLookup a attrs = some v
  | .attrSub a v =>
      match assocLookup a attrs with
      | some s => strHasSub s v
      | none => false
  | .cls c =>
      match assocLookup "class" attrs with
      | some s => (classTokens s).contains c
      | none => false
  | .clsSub sub =>
      match assocLookup "class" attrs with
      | some s => strHasSub s sub
      | none => false
  | .idSel i => assocLookup "id" attrs = some i
  | .tagNotAttrEq t a v => tag = t && !(assocLookup a attrs = some v)
  | .tagAttrEq t a v => tag = t && assocLookup a attrs = some v

mutual

/-- `querySelectorAll(sel).length` over a subtree (the collection happens
before any removal, so nested matches are all counted). -/
def countMatches (sel : Selector) : DomNode → Nat
  | .text _ => 0
  | .elem tag attrs children =>
      (if matchesSel tag attrs sel then 1 else 0) + countMatchesList sel children

/-- Helper for `countMatches` over child lists. -/
def countMatchesList (sel : Selector) : List DomNode → Nat
  | [] => 0
  | n :: rest => countMatches sel n + countMatchesList sel rest

end

mutual

/-- `el.remove()` on each collected match: a matching element disappears with
its whole subtree (result `[]`); a surviving node keeps its pruned children. -/
def pruneNode (sel : Selector) : DomNode → List DomNode
  | .text s => [.text s]
  | .elem t a ch =>
      if matchesSel t a sel then []
      else [.elem t a (pruneForest sel ch)]

/-- Prune every node of a child list. -/
def pruneForest (sel : Selector) : List DomNode → List DomNode
  | [] => []
  | n :: rest => pruneNode sel n ++ pruneForest sel rest

end

/-- Apply one removal selector below the body element (the body itself, the
document root of the embedding, is never removed). -/
def removeFromBody (sel : Selector) : DomNode → DomNode
  | .elem t a ch => .elem t a (pruneForest sel ch)
  | n => n

/-- One `selectors.forEach` removal pass: for each selector in order, count
the current matches, then remove them. -/
def runPass (tree : DomNode) (count : Nat) (sels : List Selector) : DomNode × Nat :=
  sels.foldl (fun (acc : DomNode × Nat) sel =>
    (removeFromBody sel acc.1, acc.2 + countMatches sel acc.1)) (tree, count)

/-- `REMOVE_ELEMENTS` (cleaning.ts lines 74–78). -/
def REMOVE_ELEMENTS : List Selector :=
  [.tagNotAttrEq "script" "type" "application/ld+json",
   .tag "style", .tag "noscript", .tag "iframe", .tag "svg", .tag "canvas",
   .tag "video", .tag "audio", .tag "object", .tag "embed", .tag "applet"]

/-- `BOILERPLATE_SELECTORS` (cleaning.ts lines 81–92). -/
def BOILERPLATE_SELECTORS : List Selector :=
  [.tag "nav", .tag "header", .tag "footer", .tag "aside",
   .attrEq "role" "navigation", .attrEq "role" "banner", .attrEq "role" "contentinfo",
   .cls "nav", .cls "navigation", .cls "navbar", .cls "header", .cls "footer", .cls "sidebar",
   .cls "cookie-banner", .cls "cookie-notice", .cls "cookie-consent", .cls "gdpr",
   .cls "popup", .cls "modal", .cls "overlay", .cls "lightbox",
   .cls "advertisement", .cls "ad", .cls "ads", .cls "advert", .clsSub "ad-",
   .cls "social-share", .cls "share-buttons", .cls "social-icons",
   .cls "newsletter", .cls "subscribe", .cls "signup",
   .cls "breadcrumb", .cls "breadcrumbs",
   .idSel "comments", .cls "comments", .cls "comment-section"]

/-- `HIDDEN_SELECTORS` (cleaning.ts lines 95–102). -/
def HIDDEN_SELECTORS : List Selector :=
  [.attrEq "aria-hidden" "true",
   .attrPresent "hidden",
   .cls "hidden", .cls "hide", .cls "invisible",
   .cls "sr-only", .cls "visually-hidden", .cls "screen-reader-text",
   .attrSub "style" "display: none", .attrSub "style" "display:none",
   .attrSub "style" "visibility: hidden", .attrSub "style" "visibility:hidden"]

mutual

/-- `textContent`: concatenation of all descendant text nodes. -/
def textContentOf : DomNode → String
  | .text s => s
  | .elem _ _ ch => textContentList ch

/-- Helper for `textContentOf` over child lists. -/
def textContentList : List DomNode → String
  | [] => ""
  | n :: rest => textContentOf n ++ textContentList rest

end

mutual

/-- All elements with the given tag, in document (pre-)order. -/
def collectTagElems (t : String) : DomNode → List DomNode
  | .text _ => []
  | .elem tag attrs ch =>
      (if tag = t then [DomNode.elem tag attrs ch] else []) ++ collectTagList t ch

/-- Helper for `collectTagElems` over child lists. -/
def collectTagList (t : String) : List DomNode → List DomNode
  | [] => []
  | n :: rest => collectTagElems t n ++ collectTagList t rest

end

/-- Heading extraction (cleaning.ts lines 256–267): for levels 1–6 in order,
each `h{i}` element with nonempty trimmed `textContent`. -/
def headingsOf (tree : DomNode) : List (Nat × String) :=
  (List.range 6).flatMap (fun i =>
    (collectTagElems ("h" ++ toString (i + 1)) tree).filterMap (fun el =>
      let t := strTrim (textContentOf el)
      if t ≠ "" then some (i + 1, t) else none))

mutual

/-- `extractVisibleText`'s TreeWalker harvest (cleaning.ts lines 108–152):
in document order, trimmed nonempty text nodes, `aria-label` and `title`
attributes of every element, and `alt` of `img` elements. -/
def visibleParts : DomNode → List String
  | .text s => if strTrim s ≠ "" then [strTrim s] else []
  | .elem tag attrs ch =>
      let a1 :=
        match assocLookup "aria-label" attrs with
        | some v => if strTrim v ≠ "" then [strTrim v] else []
        | none => []
      let a2 :=
        match assocLookup "title" attrs with
        | some v => if strTrim v ≠ "" then [strTrim v] else []
        | none => []
      let a3 :=
        if tag = "img" then
          match assocLookup "alt" attrs with
          | some v => if strTrim v ≠ "" then [strTrim v] else []
          | none => []
        else []
      a1 ++ a2 ++ a3 ++ visiblePartsList ch

/-- Helper for `visibleParts` over child lists. -/
def visiblePartsList : List DomNode → List String
  | [] => []
  | n :: rest => visibleParts n ++ visiblePartsList rest

end

/-- Consecutive-duplicate collapsing (cleaning.ts lines 155–160). -/
def dedupConsecutive (parts : List String) : List String :=
  parts.foldl (fun acc t => if acc.getLast? = some t then acc else acc ++ [t]) []

/-- `extractVisibleText` (cleaning.ts lines 108–163). -/
def visibleTextOf (tree : DomNode) : String :=
  String.intercalate "\n" (dedupConsecutive (visibleParts tree))

/-- The slice of `CleaningResult` that this embedding covers: headings,
visible text, and the removal counter (plus the token estimate derived from
the visible text). -/
structure CleanOut where
  headings : List (Nat × String)
  visibleText : String
  elementsRemoved : Nat
  tokenEstimate : Nat
  deriving Repr

/-- `clean` (cleaning.ts lines 168–401) on the parsed body tree, in the
source's pass order: dangerous-element removal (counted), JSON-LD script
removal (uncounted), hidden-element removal (counted), boilerplate removal
(counted), then heading extraction and the visible-text harvest over the
pruned tree. The structural extractions the claims do not constrain (lists,
tables, images, links, buttons, meta) are not modelled. -/
def cleanTree (body : DomNode) : CleanOut :=
  let (t1, c1) := runPass body 0 REMOVE_ELEMENTS
  let t1b := removeFromBody (.tagAttrEq "script" "type" "application/ld+json") t1
  let (t2, c2) := runPass t1b c1 HIDDEN_SELECTORS
  let (t3, c3) := runPass t2 c2 BOILERPLATE_SELECTORS
  let vt := visibleTextOf t3
  { headings := headingsOf t3,
    visibleText := vt,
    elementsRemoved := c3,
    tokenEstimate := (vt.length + 3) / 4 }

/-! ## Flattener (flatten.ts) -/

/-- Tags whose subtrees the flattener skips entirely (flatten.ts line 42). -/
def flattenSkipTags : List String :=
  ["script", "style", "svg", "canvas", "video", "audio", "iframe", "noscript"]

/-- JS `Set.add` on an insertion-ordered set modelled as a duplicate-free
list. -/
def setAdd (l : List String) (s : String) : List String :=
  if l.contains s then l else l ++ [s]

/-- Add one trimmed nonempty candidate line to the insertion-ordered set
(used for text-node content and for each accessibility attribute). -/
def addAttrText (texts : List String) (v : Option String) : List String :=
  match v with
  | some s => if strTrim s ≠ "" then setAdd texts (strTrim s) else texts
  | none => texts

/-- Is the element an `<i>` icon marker (`tag === 'i' &&
className.includes('icon')`, flatten.ts line 47)? -/
def isIconElem (tag : String) (attrs : List (String × String)) : Bool :=
  tag = "i" &&
    (match assocLookup "class" attrs with
     | some c => strHasSub c "icon"
     | none => false)

mutual

/-- `extractTextContent` (flatten.ts lines 26–71): collect trimmed text nodes
and `aria-label`/`title`/`alt` attributes into the insertion-ordered set,
skipping non-textual subtrees and `<i class*="icon">` icon markers. -/
def extractTextContent (n : DomNode) (texts : List String) : List String :=
  match n with
  | .text s => addAttrText texts (some s)
  | .elem tag attrs ch =>
      if flattenSkipTags.contains tag then texts
      else if isIconElem tag attrs then texts
      else
        extractTextList ch
          (addAttrText
            (addAttrText
              (addAttrText texts (assocLookup "aria-label" attrs))
              (assocLookup "title" attrs))
            (assocLookup "alt" attrs))

/-- Recurse into children (flatten.ts lines 68–70). -/
def extractTextList (ns : List DomNode) (texts : List String) : List String :=
  match ns with
  | [] => texts
  | n :: rest => extractTextList rest (extractTextContent n texts)

end

/-- `replace(/\s+/g, ' ')`: collapse each whitespace run to a single space. -/
def collapseWs : List Char → List Char
  | [] => []
  | [c] => if c.isWhitespace then [' '] else [c]
  | c :: d :: rest =>
      if c.isWhitespace && d.isWhitespace then collapseWs (d :: rest)
      else (if c.isWhitespace then ' ' else c) :: collapseWs (d :: rest)

/-- `text.replace(/\s+/g, ' ').trim()`. -/
def normSpace (s : String) : String := String.mk (trimChars (collapseWs s.toList))

/-- The `lines` array of `flattenHtml` (flatten.ts lines 106–108): the set's
entries in insertion order, whitespace-normalized, nonempty. -/
def flattenLines (body : DomNode) : List String :=
  ((extractTextContent body []).map normSpace).filter (fun t => t ≠ "")

/-- `flattenHtml` (flatten.ts lines 82–126) on the parsed body tree: the
deduplicated line set joined with single newlines. -/
def flattenHtml (body : DomNode) : String :=
  String.intercalate "\n" (flattenLines body)

/-! ## Concrete candidates and trees used by witnesses and counterexamples -/

/-- A Product candidate with `name` present and every other field absent. -/
def dProdNameOnly : ExtractionResult :=
  { detectedType := "Product",
    product := some { name := some "Widget", description := none, image := none,
                      sku := none, gtin := none, brand := none, offers := none,
                      aggregateRating := none } }

/-- A HowTo candidate whose single step has null `name`, `url` and `image`. -/
def dHowToNullStep : ExtractionResult :=
  { detectedType := "HowTo",
    howto := some { name := some "Fix a flat tire",
                    step := some [{ name := none, text := some "Remove the wheel",
                                    url := none, image := none }],
                    totalTime := none, tool := none, supply := none } }

/-- An Event candidate with `name` present but `startDate` null. -/
def dEvtNoStart : ExtractionResult :=
  { detectedType := "Event",
    event := some { name := some "Concert", startDate := none, endDate := none,
                    eventStatus := none, location := none, offers := none } }

/-- An Event candidate with both `name` and `startDate` null. -/
def dEvtNoName : ExtractionResult :=
  { detectedType := "Event",
    event := some { name := none, startDate := none, endDate := none,
                    eventStatus := none, location := none, offers := none } }

/-- A candidate whose declared type is outside the required-field table. -/
def dUnknownType : ExtractionResult := { detectedType := "Organization" }

/-- A geo object with negative latitude (Sydney). -/
def negGeo : Geo :=
  { latitude := some (.str "-33.8688"), longitude := some (.str "151.2093") }

/-- A LocalBusiness with negative geographic coordinates. -/
def bizNegGeo : LocalBusiness :=
  { name := some "Harbour Cafe", image := none, telephone := none,
    address := none, geo := some negGeo, openingHours := none, priceRange := none }

/-- A LocalBusiness candidate with negative geographic coordinates. -/
def dBizNegGeo : ExtractionResult :=
  { detectedType := "LocalBusiness", localBusiness := some bizNegGeo }

/-- The cleaning scenario of the spec: one `<h1>Widget</h1>`, one hidden
`<div style="display:none">secret</div>`, and a `<nav>` block. -/
def scenarioBody : DomNode :=
  .elem "body" []
    [.elem "h1" [] [.text "Widget"],
     .elem "div" [("style", "display:none")] [.text "secret"],
     .elem "nav" [] [.elem "a" [("href", "/home")] [.text "Home"],
                     .elem "a" [("href", "/about")] [.text "About"]]]

/-- A body whose two text nodes differ only in interior whitespace. -/
def dupLinesBody : DomNode :=
  .elem "body" [] [.elem "p" [] [.text "a  b"], .elem "p" [] [.text "a b"]]

/-! ## Batch-validator characterization lemmas -/

theorem foldl_multiStep (cands : List ExtractionResult) :
    ∀ a r t p, cands.foldl multiStep (a, r, t, p) =
      (a ++ acceptedOf cands, r ++ rejectedOf cands, t ++ typesOf cands, p ++ repairsOf cands) := by
  induction cands with
  | nil => intro a r t p; simp [acceptedOf, rejectedOf, typesOf, repairsOf]
  | cons c cs ih =>
      intro a r t p
      simp only [List.foldl_cons]
      rcases hv : validate c with ⟨j, ty, reps⟩ | rs
      · rw [show multiStep (a, r, t, p) c = (a ++ [j], r, t ++ [ty], p ++ reps) by
          simp [multiStep, hv]]
        rw [ih]
        simp [acceptedOf, rejectedOf, typesOf, repairsOf, hv, List.append_assoc]
      · rw [show multiStep (a, r, t, p) c = (a, r ++ [⟨c.detectedType, rs⟩], t, p) by
          simp [multiStep, hv]]
        rw [ih]
        simp [acceptedOf, rejectedOf, typesOf, repairsOf, hv, List.append_assoc]

theorem validateMultiEntity_eq (cands : List ExtractionResult) :
    validateMultiEntity cands =
      if (acceptedOf cands).isEmpty then .failure "no valid entities"
      else .success ⟨acceptedOf cands, rejectedOf cands, typesOf cands, repairsOf cands⟩ := by
  unfold validateMultiEntity
  rw [foldl_multiStep cands [] [] [] []]
  simp

theorem acceptedOf_eq_nil_iff (cands : List ExtractionResult) :
    acceptedOf cands = [] ↔ ∀ c ∈ cands, isOk (validate c) = false := by
  induction cands with
  | nil => simp [acceptedOf]
  | cons c cs ih =>
      rcases hv : validate c with ⟨j, ty, reps⟩ | rs <;>
        simp [acceptedOf, hv, ih, isOk]

/-! ## Claim C1 -/

/-- C1: for every batch of candidate entities, validation succeeds iff at
least one candidate is accepted — when every candidate is rejected,
`validateMultiEntity` fails with reason "no valid entities"; when at least
one is accepted it succeeds, carrying the complete list of rejections (each
with its reason) alongside the accepted records. -/
theorem claim1_batch_semantics (cands : List ExtractionResult) :
    (cands.all (fun c => !isOk (validate c)) = true →
      validateMultiEntity cands = .failure "no valid entities") ∧
    (cands.any (fun c => isOk (validate c)) = true →
      validateMultiEntity cands =
        .success ⟨acceptedOf cands, rejectedOf cands, typesOf cands, repairsOf cands⟩) := by
  constructor
  · intro h
    rw [validateMultiEntity_eq]
    have hnil : acceptedOf cands = [] := by
      rw [acceptedOf_eq_nil_iff]
      intro c hc
      have := List.all_eq_true.1 h c hc
      simpa using this
    simp [hnil]
  · intro h
    rw [validateMultiEntity_eq]
    obtain ⟨c, hc, hok⟩ := List.any_eq_true.1 h
    have hne : acceptedOf cands ≠ [] := by
      intro hnil
      have := (acceptedOf_eq_nil_iff cands).1 hnil c hc
      rw [this] at hok
      exact Bool.false_ne_true hok
    simp [List.isEmpty_eq_false_iff_exists_mem.2
      (List.exists_mem_of_ne_nil _ hne)]

/-- Witness for C1: a batch of two rejecting Events fails with
"no valid entities"; a batch containing one rejecting Event and one accepted
Product succeeds with the rejection list intact. -/
theorem claim1_batch_semantics_witness :
    validateMultiEntity [dEvtNoName, dEvtNoStart] = .failure "no valid entities" ∧
    validateMultiEntity [dEvtNoStart, dProdNameOnly] =
      .success ⟨acceptedOf [dEvtNoStart, dProdNameOnly],
                rejectedOf [dEvtNoStart, dProdNameOnly],
                typesOf [dEvtNoStart, dProdNameOnly],
                repairsOf [dEvtNoStart, dProdNameOnly]⟩ :=
  ⟨(claim1_batch_semantics [dEvtNoName, dEvtNoStart]).1 (by decide),
   (claim1_batch_semantics [dEvtNoStart, dProdNameOnly]).2 (by decide)⟩

/-! ## Claim C2: null fields in built records -/

theorem fieldsHaveNull_append (a b : List (String × Json)) :
    fieldsHaveNull (a ++ b) = (fieldsHaveNull a || fieldsHaveNull b) := by
  induction a with
  | nil => simp [fieldsHaveNull]
  | cons kv rest ih =>
      obtain ⟨k, v⟩ := kv
      simp [fieldsHaveNull, ih, Bool.or_assoc]

theorem addTruthyStr_hasNull (fs : List (String × Json)) (k : String) (v : Option String) :
    fieldsHaveNull (addTruthyStr fs k v) = fieldsHaveNull fs := by
  cases v with
  | none => rfl
  | some s =>
      by_cases h : s = "" <;>
        simp [addTruthyStr, h, fieldsHaveNull_append, fieldsHaveNull,
          jsonHasNullField, Json.isNullish]

theorem elemsHaveNull_mapStr (l : List String) : elemsHaveNull (l.map Json.str) = false := by
  induction l with
  | nil => rfl
  | cons s rest ih => simp [elemsHaveNull, jsonHasNullField, Json.isNullish, ih]

theorem addNonemptyStrList_hasNull (fs : List (String × Json)) (k : String)
    (v : Option (List String)) :
    fieldsHaveNull (addNonemptyStrList fs k v) = fieldsHaveNull fs := by
  cases v with
  | none => rfl
  | some l =>
      by_cases h : l.length ≠ 0 <;>
        simp [addNonemptyStrList, h, fieldsHaveNull_append, fieldsHaveNull,
          jsonHasNullField, Json.isNullish, elemsHaveNull_mapStr]

theorem addBrandField_hasNull (fs : List (String × Json)) (b : Option Brand) :
    fieldsHaveNull (addBrandField fs b) = fieldsHaveNull fs := by
  cases b with
  | none => rfl
  | some br =>
      cases hbn : br.name with
      | none => simp [addBrandField, hbn]
      | some bn =>
          by_cases h : bn = "" <;>
            simp [addBrandField, hbn, h, fieldsHaveNull_append, fieldsHaveNull,
              jsonHasNullField, Json.isNullish]

theorem buildOfferProduct_hasNull (off : ProductOffer) (reps : List String) :
    fieldsHaveNull (buildOfferProduct off reps).1 = false := by
  unfold buildOfferProduct
  rcases h : repairPrice off.price with _ | pr <;>
    simp [h, addTruthyStr_hasNull, fieldsHaveNull_append, fieldsHaveNull,
      jsonHasNullField, Json.isNullish]

theorem addProductOffers_hasNull (fs : List (String × Json)) (off : Option ProductOffer)
    (reps : List String) :
    fieldsHaveNull (addProductOffers fs off reps).1 = fieldsHaveNull fs := by
  cases off with
  | none => rfl
  | some o =>
      have h := buildOfferProduct_hasNull o reps
      rcases hb : buildOfferProduct o reps with ⟨offer, r'⟩
      rw [hb] at h
      simp [addProductOffers, hb, fieldsHaveNull_append, fieldsHaveNull,
        jsonHasNullField, Json.isNullish, h]

theorem addAggregateRatingField_hasNull (fs : List (String × Json))
    (ar : Option AggregateRating) :
    fieldsHaveNull (addAggregateRatingField fs ar) = fieldsHaveNull fs := by
  cases ar with
  | none => rfl
  | some a =>
      rcases h1 : repairPrice a.ratingValue with _ | rv <;>
        rcases h2 : repairPrice a.reviewCount with _ | rc <;>
          simp [addAggregateRatingField, h1, h2, fieldsHaveNull_append, fieldsHaveNull,
            jsonHasNullField, Json.isNullish]

theorem buildProduct_hasNull (base : List (String × Json)) (p : Product)
    (reps : List String) (hb : fieldsHaveNull base = false) :
    jsonHasNullField (buildProduct base p reps).1 = false := by
  unfold buildProduct
  rcases ho : addProductOffers
      (addBrandField
        (addTruthyStr (addTruthyStr (addNonemptyStrList
          (addTruthyStr (addTruthyStr base "name" p.name) "description" p.description)
          "image" p.image) "sku" p.sku) "gtin" p.gtin) p.brand) p.offers reps
    with ⟨fs1, reps1⟩
  have h1 : fieldsHaveNull fs1 = false := by
    have := addProductOffers_hasNull
      (addBrandField
        (addTruthyStr (addTruthyStr (addNonemptyStrList
          (addTruthyStr (addTruthyStr base "name" p.name) "description" p.description)
          "image" p.image) "sku" p.sku) "gtin" p.gtin) p.brand) p.offers reps
    rw [ho] at this
    simpa [addBrandField_hasNull, addTruthyStr_hasNull, addNonemptyStrList_hasNull, hb]
      using this
  simp [ho, jsonHasNullField, addAggregateRatingField_hasNull, h1]

/-- The amended C2, part 1: every accepted Product candidate's record is free
of null/undefined-valued keys at any depth. -/
theorem validate_product_no_null (d : ExtractionResult) (j : Json) (ty : String)
    (reps : List String) (hty : d.detectedType = "Product")
    (hval : validate d = .ok j ty reps) : jsonHasNullField j = false := by
  unfold validate at hval
  cases hz : zodCheck d with
  | some r => rw [hz] at hval; cases hval
  | none =>
  rw [hz] at hval
  cases hreq : checkRequiredFields d with
  | some r => rw [hreq] at hval; cases hval
  | none =>
      rw [hreq] at hval
      rcases hjb : buildJsonLd d [] with ⟨j0, reps0⟩
      rw [hjb] at hval
      cases hval
      have hj : j = (buildJsonLd d []).1 := by rw [hjb]
      rw [hj]
      clear hjb hj
      unfold buildJsonLd
      rw [hty]
      cases hp : d.product with
      | none => simp [hp, jsonHasNullField, fieldsHaveNull, Json.isNullish]
      | some p =>
          simp only [hp, if_pos rfl]
          exact buildProduct_hasNull _ p [] (by
            simp [fieldsHaveNull, jsonHasNullField, Json.isNullish])

/-- C2 counterexample: a HowTo candidate whose step has null `name`, `url`
and `image` is accepted by the validator, yet its built record carries
null-valued keys (inside the step object) — refuting the claim that accepted
records never contain null-valued fields. -/
theorem claim2_null_field_counterexample :
    isOk (validate dHowToNullStep) = true ∧
    jsonHasNullField (jsonOfResult (validate dHowToNullStep)) = true := by
  exact ⟨rfl, rfl⟩

/-- C2 (amended): for Product candidates the claim holds — every accepted
Product record is free of null/undefined-valued keys at any depth, and the
Product candidate with only `name` present is accepted with exactly the
`@context`/`@type` envelope plus `name`. (HowTo — and FAQPage — records copy
nested step/question subfields verbatim, so they can carry null-valued keys;
see the counterexample.) -/
theorem claim2_product_no_null_fields :
    (∀ (d : ExtractionResult) (j : Json) (ty : String) (reps : List String),
        d.detectedType = "Product" → validate d = .ok j ty reps →
        jsonHasNullField j = false) ∧
    validate dProdNameOnly =
      .ok (Json.obj [("@context", Json.str "https://schema.org"),
                     ("@type", Json.str "Product"),
                     ("name", Json.str "Widget")]) "Product" [] :=
  ⟨fun d j ty reps hty hval => validate_product_no_null d j ty reps hty hval, rfl⟩

/-- Witness for C2 (amended), instantiating the universal part at the
name-only Product candidate. -/
theorem claim2_product_no_null_fields_witness :
    jsonHasNullField (Json.obj [("@context", Json.str "https://schema.org"),
                                ("@type", Json.str "Product"),
                                ("name", Json.str "Widget")]) = false :=
  claim2_product_no_null_fields.1 dProdNameOnly
    (Json.obj [("@context", Json.str "https://schema.org"),
               ("@type", Json.str "Product"),
               ("name", Json.str "Widget")]) "Product" [] rfl (by rfl)

/-! ## Claim C3: repairUrl -/

theorem listIsPfx_head (a : Char) (p cs : List Char) (h : listIsPfx (a :: p) cs = true) :
    ∃ rest, cs = a :: rest := by
  cases cs with
  | nil => simp [listIsPfx] at h
  | cons c rest =>
      simp only [listIsPfx, Bool.and_eq_true, decide_eq_true_eq] at h
      exact ⟨rest, by rw [h.1]⟩

theorem not_protocol_relative_of_http (u : String)
    (h : (strStartsWith u "http://" || strStartsWith u "https://") = true) :
    strStartsWith u "//" = false ∧ u ≠ "" := by
  have hh : ∃ rest, u.toList = 'h' :: rest := by
    rw [Bool.or_eq_true] at h
    rcases h with h1 | h1
    · exact listIsPfx_head 'h' _ _ h1
    · exact listIsPfx_head 'h' _ _ h1
  obtain ⟨rest, hrest⟩ := hh
  have hdata : u.data = 'h' :: rest := hrest
  constructor
  · simp [strStartsWith, String.toList, hdata, listIsPfx]
  · intro e
    rw [e] at hrest
    simp at hrest

/-- C3: `repairUrl` rewrites protocol-relative URLs to `https:` regardless of
the base; returns valid already-absolute URLs unchanged; resolves relative
URLs against the base when one is supplied; returns absent when there is no
way to resolve; and — being a total Lean function — never throws. Includes
the spec's three concrete examples. -/
theorem claim3_repairUrl_spec :
    (∀ (u : String) (base : Option String), strStartsWith u "//" = true →
        isValidUrl ("https:" ++ u) = true →
        repairUrl (some u) base = some ("https:" ++ u)) ∧
    (∀ (u : String) (base : Option String),
        (strStartsWith u "http://" || strStartsWith u "https://") = true →
        isValidUrl u = true → repairUrl (some u) base = some u) ∧
    (∀ (u b : String), u ≠ "" → strStartsWith u "//" = false →
        (strStartsWith u "http://" || strStartsWith u "https://") = false →
        repairUrl (some u) (some b) = resolveUrl u b) ∧
    (∀ (u : String), u ≠ "" → strStartsWith u "//" = false →
        (strStartsWith u "http://" || strStartsWith u "https://") = false →
        repairUrl (some u) none = none) ∧
    repairUrl (some "//cdn.example.com/x.png") none = some "https://cdn.example.com/x.png" ∧
    repairUrl (some "/a/b") (some "https://example.com/p") = some "https://example.com/a/b" ∧
    repairUrl (some "not a url") none = none := by
  refine ⟨?_, ?_, ?_, ?_, by rfl, by rfl, by rfl⟩
  · intro u base h hv
    have hne : u ≠ "" := by
      intro e
      rw [e] at h
      exact absurd h (by decide)
    simp [repairUrl, hne, h, hv]
  · intro u base h hv
    obtain ⟨hpr, hne⟩ := not_protocol_relative_of_http u h
    simp [repairUrl, hne, hpr, h, hv]
  · intro u b hne hpr habs
    simp [repairUrl, hne, hpr, habs]
  · intro u hne hpr habs
    simp [repairUrl, hne, hpr, habs]

/-- Witness for C3: the three hypothesis-bearing branches at concrete URLs. -/
theorem claim3_repairUrl_spec_witness :
    repairUrl (some "//cdn.example.com/x.png") (some "https://example.com/") =
      some "https://cdn.example.com/x.png" ∧
    repairUrl (some "http://plain.example.org/a") none = some "http://plain.example.org/a" ∧
    repairUrl (some "img.png") (some "https://example.com/p/q") =
      resolveUrl "img.png" "https://example.com/p/q" ∧
    repairUrl (some "not a url either") none = none :=
  ⟨claim3_repairUrl_spec.1 "//cdn.example.com/x.png" (some "https://example.com/")
      (by decide) (by decide),
   claim3_repairUrl_spec.2.1 "http://plain.example.org/a" none (by decide) (by decide),
   claim3_repairUrl_spec.2.2.1 "img.png" "https://example.com/p/q"
      (by decide) (by decide) (by decide),
   claim3_repairUrl_spec.2.2.2.1 "not a url either"
      (by decide) (by decide) (by decide)⟩

/-! ## Claim C4: unknown types and the required-field check -/

/-- C4: a candidate whose declared type is not a key of the static
required-field table gets the empty required-field set
(`REQUIRED_FIELDS[type] || []`), so the required-field loop can never reject
it — the only rejection `checkRequiredFields` can produce for it is the
missing-data-object message, which names no required field. -/
theorem claim4_unknown_type_permissive (d : ExtractionResult)
    (h : assocLookup d.detectedType REQUIRED_FIELDS = none) :
    requiredFieldsFor d.detectedType = [] ∧
    checkRequiredFields d = some ("Missing " ++ d.detectedType ++ " data object") := by
  have hne : ∀ t : String, t ∈ ["Product", "Recipe", "Event", "LocalBusiness",
      "Article", "BlogPosting", "FAQPage", "HowTo", "WebPage"] → d.detectedType ≠ t := by
    intro t ht e
    rw [show d.detectedType = t from e] at h
    fin_cases ht <;> simp [assocLookup, REQUIRED_FIELDS] at h
  have hreq : requiredFieldsFor d.detectedType = [] := by
    unfold requiredFieldsFor
    rw [h]
    rfl
  refine ⟨hreq, ?_⟩
  unfold checkRequiredFields
  have hsd : schemaDataOf d = none := by
    unfold schemaDataOf
    rw [if_neg (hne "Product" (by simp)), if_neg (hne "Recipe" (by simp)),
      if_neg (hne "Event" (by simp)), if_neg (hne "LocalBusiness" (by simp)),
      if_neg (hne "Article" (by simp)), if_neg (hne "BlogPosting" (by simp)),
      if_neg (hne "FAQPage" (by simp)), if_neg (hne "HowTo" (by simp)),
      if_neg (hne "WebPage" (by simp))]
  rw [hsd]

/-- Witness for C4: the unknown type "Organization". -/
theorem claim4_unknown_type_permissive_witness :
    requiredFieldsFor "Organization" = [] ∧
    checkRequiredFields dUnknownType = some ("Missing " ++ "Organization" ++ " data object") :=
  claim4_unknown_type_permissive dUnknownType (by decide)

/-! ## Claim C5: the cleaning scenario -/

/-- C5: on the markup with one `<h1>Widget</h1>`, one hidden
`<div style="display:none">secret</div>` and a `<nav>` block, `clean` yields
exactly the heading of level 1 with text "Widget", a visible text containing
neither "secret" nor any nav text ("Home"/"About"), and an
`elementsRemoved` of at least 2. -/
theorem claim5_clean_scenario :
    (cleanTree scenarioBody).headings = [(1, "Widget")] ∧
    strHasSub (cleanTree scenarioBody).visibleText "secret" = false ∧
    strHasSub (cleanTree scenarioBody).visibleText "Home" = false ∧
    strHasSub (cleanTree scenarioBody).visibleText "About" = false ∧
    2 ≤ (cleanTree scenarioBody).elementsRemoved := by
  refine ⟨by decide, by decide, by decide, by decide, by decide⟩

/-! ## Claim C6: repairDate -/

/-- C6 counterexample: the empty string is an input whose parse fails, yet
`repairDate` returns absent (`null`) instead of the original string — the
source's `if (!date)` guard is taken for `""` too. -/
theorem claim6_empty_string_counterexample : repairDate (some "") = none := rfl

/-- C6 (amended): for every NONEMPTY input string, `repairDate` returns the
calendar-date portion `YYYY-MM-DD` when parsing succeeds and the original
string unchanged (never absent) when parsing fails; the empty string — like
null — returns absent. Includes the spec's two examples. -/
theorem claim6_repairDate_amended :
    repairDate (some "January 21, 2026") = some "2026-01-21" ∧
    repairDate (some "not a date") = some "not a date" ∧
    (∀ s : String, s ≠ "" → jsDateParse s = none → repairDate (some s) = some s) ∧
    (∀ (s : String) (y m d : Nat), s ≠ "" → jsDateParse s = some (y, m, d) →
        repairDate (some s) = some (isoDateString y m d)) ∧
    (∀ s : String, s ≠ "" → repairDate (some s) ≠ none) := by
  refine ⟨by decide, by decide, ?_, ?_, ?_⟩
  · intro s hne hparse
    simp [repairDate, hne, hparse]
  · intro s y m d hne hparse
    simp [repairDate, hne, hparse]
  · intro s hne
    cases hparse : jsDateParse s with
    | none => simp [repairDate, hne, hparse]
    | some ymd =>
        obtain ⟨y, m, d⟩ := ymd
        simp [repairDate, hne, hparse]

/-- Witness for C6 (amended): a parsing success and a parsing failure. -/
theorem claim6_repairDate_amended_witness :
    repairDate (some "July 4, 1776") = some (isoDateString 1776 7 4) ∧
    repairDate (some "gibberish") = some "gibberish" :=
  ⟨claim6_repairDate_amended.2.2.2.1 "July 4, 1776" 1776 7 4 (by decide) (by decide),
   claim6_repairDate_amended.2.2.1 "gibberish" (by decide) (by decide)⟩

/-! ## Claim C7: repairPrice -/

theorem takeWhile_isDigit_nil (l : List Char) (h : ∀ c ∈ l, c.isDigit = false) :
    l.takeWhile Char.isDigit = [] := by
  cases l with
  | nil => rfl
  | cons a t =>
      have ha := h a (by simp)
      simp [List.takeWhile_cons, ha]

theorem run1_comma (cs : List Char) (h : ∀ c ∈ cs, c.isDigit = false) :
    ∀ c ∈ cs.takeWhile isDigitOrComma, c = ',' := by
  intro c hc
  have h1 : isDigitOrComma c = true := List.mem_takeWhile_imp hc
  have h2 : c ∈ cs := (List.takeWhile_sublist _).subset hc
  have h3 := h c h2
  simpa [isDigitOrComma, h3] using h1

theorem numericRunAt_chars (cs : List Char) (h : ∀ c ∈ cs, c.isDigit = false) :
    ∀ c ∈ numericRunAt cs, c = ',' ∨ c = '.' := by
  intro c hc
  unfold numericRunAt at hc
  split at hc
  · next b rest2 heq =>
      by_cases hb : b = '.'
      · rw [if_pos hb] at hc
        rcases List.mem_append.1 hc with h1 | h1
        · exact Or.inl (run1_comma cs h c h1)
        · rcases List.mem_cons.1 h1 with h2 | h2
          · exact Or.inr h2
          · exfalso
            have hrest2 : ∀ x ∈ rest2, x.isDigit = false := by
              intro x hx
              apply h
              exact List.drop_subset _ cs (heq ▸ List.mem_cons_of_mem b hx)
            rw [takeWhile_isDigit_nil rest2 hrest2] at h2
            simp at h2
      · rw [if_neg hb] at hc
        exact Or.inl (run1_comma cs h c hc)
  · exact Or.inl (run1_comma cs h c hc)

theorem firstNumericRun_chars (cs : List Char) (m : List Char)
    (h : ∀ c ∈ cs, c.isDigit = false) (hfr : firstNumericRun cs = some m) :
    ∀ c ∈ m, c = ',' ∨ c = '.' := by
  induction cs with
  | nil => simp [firstNumericRun] at hfr
  | cons a rest ih =>
      by_cases ha : isDigitOrComma a = true
      · rw [show firstNumericRun (a :: rest) = some (numericRunAt (a :: rest)) by
          simp [firstNumericRun, ha]] at hfr
        have hm : numericRunAt (a :: rest) = m := by injection hfr
        exact hm ▸ numericRunAt_chars (a :: rest) h
      · rw [show firstNumericRun (a :: rest) = firstNumericRun rest by
          simp [firstNumericRun, ha]] at hfr
        exact ih (fun c hc => h c (List.mem_cons_of_mem a hc)) hfr

theorem stripGroupCommas_mem (l : List Char) : ∀ c ∈ stripGroupCommas l, c ∈ l := by
  induction l with
  | nil => intro c hc; simp [stripGroupCommas] at hc
  | cons a rest ih =>
      intro c hc
      unfold stripGroupCommas at hc
      split at hc
      · exact List.mem_cons_of_mem _ (ih c hc)
      · rcases List.mem_cons.1 hc with h | h
        · exact List.mem_cons.2 (Or.inl h)
        · exact List.mem_cons_of_mem _ (ih c h)

theorem replaceFirstComma_mem (l : List Char) :
    ∀ c ∈ replaceFirstComma l, c ∈ l ∨ c = '.' := by
  induction l with
  | nil => intro c hc; simp [replaceFirstComma] at hc
  | cons a rest ih =>
      intro c hc
      unfold replaceFirstComma at hc
      split at hc
      · rcases List.mem_cons.1 hc with h | h
        · exact Or.inr h
        · exact Or.inl (List.mem_cons_of_mem _ h)
      · rcases List.mem_cons.1 hc with h | h
        · exact Or.inl (List.mem_cons.2 (Or.inl h))
        · rcases ih c h with h2 | h2
          · exact Or.inl (List.mem_cons_of_mem _ h2)
          · exact Or.inr h2

theorem fracOf_no_digits (l : List Char) (hnd : ∀ c ∈ l, c.isDigit = false) :
    fracOf l = [] := by
  have hint : l.takeWhile Char.isDigit = [] := takeWhile_isDigit_nil l hnd
  unfold fracOf
  rw [hint]
  simp only [List.length_nil, List.drop_zero]
  cases l with
  | nil => rfl
  | cons a rest =>
      by_cases hb : a = '.'
      · subst hb
        have hrest : rest.takeWhile Char.isDigit = [] :=
          takeWhile_isDigit_nil rest (fun c hc => hnd c (List.mem_cons_of_mem _ hc))
        simp [hrest]
      · simp [hb]

theorem parseFloatQ_no_digits (l : List Char) (h : ∀ c ∈ l, c = ',' ∨ c = '.') :
    parseFloatQ l = none := by
  have hnd : ∀ c ∈ l, c.isDigit = false := by
    intro c hc
    rcases h c hc with e | e <;> subst e <;> decide
  unfold parseFloatQ
  rw [takeWhile_isDigit_nil l hnd, fracOf_no_digits l hnd]
  rfl

theorem parseFloatQ_nonneg (cs : List Char) (q : ℚ) (h : parseFloatQ cs = some q) :
    0 ≤ q := by
  unfold parseFloatQ at h
  split at h
  · cases h
  · have h' := Option.some.inj h
    rw [← h']
    positivity

/-- Evaluation helper: `repairPrice` on a string whose numeric-run match and
cleaned digit runs are given explicitly. -/
theorem repairPrice_str_eval (s : String) (m ds fs : List Char)
    (hfr : firstNumericRun s.toList = some m)
    (hds : (replaceFirstComma (stripGroupCommas m)).takeWhile Char.isDigit = ds)
    (hfs : fracOf (replaceFirstComma (stripGroupCommas m)) = fs)
    (hne : (ds.isEmpty && fs.isEmpty) = false) :
    repairPrice (some (.str s)) =
      some ((digitsVal ds : ℚ) + (digitsVal fs : ℚ) / (10 : ℚ) ^ fs.length) := by
  have h1 : repairPrice (some (.str s)) =
      parseFloatQ (replaceFirstComma (stripGroupCommas m)) := by
    show (match firstNumericRun s.toList with
          | some m' => parseFloatQ (replaceFirstComma (stripGroupCommas m'))
          | none => none) = parseFloatQ (replaceFirstComma (stripGroupCommas m))
    rw [hfr]
  rw [h1]
  unfold parseFloatQ
  rw [hds, hfs, hne]
  simp

/-- C7: `repairPrice` on the spec's examples — `"$19.99"` and `"19,99 EUR"`
both yield 19.99, `"no digits"` yields absent — plus thousands-separator
stripping (`"1,234.56"` ↦ 1234.56) and the general absence property: an input
without a single digit never parses. -/
theorem claim7_repairPrice_spec :
    repairPrice (some (.str "$19.99")) = some (1999 / 100 : ℚ) ∧
    repairPrice (some (.str "19,99 EUR")) = some (1999 / 100 : ℚ) ∧
    repairPrice (some (.str "no digits")) = none ∧
    repairPrice (some (.str "1,234.56")) = some (123456 / 100 : ℚ) ∧
    (∀ s : String, (∀ c ∈ s.toList, c.isDigit = false) →
        repairPrice (some (.str s)) = none) := by
  refine ⟨?_, ?_, by rfl, ?_, ?_⟩
  · rw [repairPrice_str_eval "$19.99" ['1', '9', '.', '9', '9'] ['1', '9'] ['9', '9']
      (by decide) (by decide) (by decide) (by decide),
      show digitsVal ['1', '9'] = 19 from by decide,
      show digitsVal ['9', '9'] = 99 from by decide]
    norm_num
  · rw [repairPrice_str_eval "19,99 EUR" ['1', '9', ',', '9', '9'] ['1', '9'] ['9', '9']
      (by decide) (by decide) (by decide) (by decide),
      show digitsVal ['1', '9'] = 19 from by decide,
      show digitsVal ['9', '9'] = 99 from by decide]
    norm_num
  · rw [repairPrice_str_eval "1,234.56" ['1', ',', '2', '3', '4', '.', '5', '6']
      ['1', '2', '3', '4'] ['5', '6']
      (by decide) (by decide) (by decide) (by decide),
      show digitsVal ['1', '2', '3', '4'] = 1234 from by decide,
      show digitsVal ['5', '6'] = 56 from by decide]
    norm_num
  intro s h
  have hrepr : repairPrice (some (.str s)) =
      (match firstNumericRun s.toList with
       | some m => parseFloatQ (replaceFirstComma (stripGroupCommas m))
       | none => none) := rfl
  cases hfr : firstNumericRun s.toList with
  | none => rw [hrepr, hfr]
  | some m =>
      rw [hrepr, hfr]
      have hm := firstNumericRun_chars s.toList m h hfr
      have h1 : ∀ c ∈ stripGroupCommas m, c = ',' ∨ c = '.' :=
        fun c hc => hm c (stripGroupCommas_mem m c hc)
      have h2 : ∀ c ∈ replaceFirstComma (stripGroupCommas m), c = ',' ∨ c = '.' := by
        intro c hc
        rcases replaceFirstComma_mem _ c hc with h3 | h3
        · exact h1 c h3
        · exact Or.inr h3
      exact parseFloatQ_no_digits _ h2

/-- Witness for C7: the digitless input "Price: TBD, call us" returns absent. -/
theorem claim7_repairPrice_spec_witness :
    repairPrice (some (.str "Price: TBD, call us")) = none :=
  claim7_repairPrice_spec.2.2.2.2 "Price: TBD, call us" (by decide)

/-! ## Claim C8: flattener deduplication -/

theorem setAdd_nodup (l : List String) (s : String) (h : l.Nodup) : (setAdd l s).Nodup := by
  unfold setAdd
  split
  · exact h
  · next hns =>
      have hs : s ∉ l := by simpa using hns
      simp [List.nodup_append, h, hs]

theorem addAttrText_nodup (texts : List String) (v : Option String)
    (h : texts.Nodup) : (addAttrText texts v).Nodup := by
  cases v with
  | none => exact h
  | some s =>
      by_cases ht : strTrim s = ""
      · simpa [addAttrText, ht] using h
      · simpa [addAttrText, ht] using setAdd_nodup texts (strTrim s) h

mutual

theorem extractTextContent_nodup (n : DomNode) (texts : List String) (h : texts.Nodup) :
    (extractTextContent n texts).Nodup := by
  cases n with
  | text s =>
      rw [show extractTextContent (.text s) texts = addAttrText texts (some s) by
        simp [extractTextContent]]
      exact addAttrText_nodup _ _ h
  | elem tag attrs ch =>
      by_cases h1 : tag ∈ flattenSkipTags
      · simpa [extractTextContent, h1] using h
      · by_cases h2 : isIconElem tag attrs = true
        · simpa [extractTextContent, h1, h2] using h
        · rw [show extractTextContent (.elem tag attrs ch) texts =
              extractTextList ch
                (addAttrText
                  (addAttrText
                    (addAttrText texts (assocLookup "aria-label" attrs))
                    (assocLookup "title" attrs))
                  (assocLookup "alt" attrs)) by
            simp [extractTextContent, h1, h2]]
          exact extractTextList_nodup ch _
            (addAttrText_nodup _ _ (addAttrText_nodup _ _ (addAttrText_nodup _ _ h)))

theorem extractTextList_nodup (ns : List DomNode) (texts : List String) (h : texts.Nodup) :
    (extractTextList ns texts).Nodup := by
  cases ns with
  | nil => simpa [extractTextList] using h
  | cons n rest =>
      rw [show extractTextList (n :: rest) texts =
          extractTextList rest (extractTextContent n texts) by simp [extractTextList]]
      exact extractTextList_nodup rest _ (extractTextContent_nodup n texts h)

end

/-- C8 counterexample: two text nodes that differ only in interior whitespace
("a  b" and "a b") survive the exact-equality dedup, and whitespace
normalization then makes the two output lines identical — the flattener's
output lines are NOT pairwise distinct. -/
theorem claim8_duplicate_lines_counterexample :
    flattenLines dupLinesBody = ["a b", "a b"] ∧ ¬ (flattenLines dupLinesBody).Nodup :=
  ⟨by decide, by decide⟩

/-- C8 (amended): the flattener deduplicates by exact string equality of the
RAW trimmed text, before interior whitespace is collapsed: the collected set
is always duplicate-free, and the final lines are pairwise distinct whenever
no two collected raw texts differ only in interior whitespace (in particular
whenever every collected text is already whitespace-normal). After
normalization, lines can repeat (see the counterexample). Order is
first-occurrence order of the depth-first traversal, joined by single
newlines. -/
theorem claim8_flatten_dedup_amended :
    (∀ (n : DomNode) (texts : List String), texts.Nodup →
        (extractTextContent n texts).Nodup) ∧
    (∀ body : DomNode, (∀ t ∈ extractTextContent body [], normSpace t = t) →
        (flattenLines body).Nodup) := by
  refine ⟨fun n texts h => extractTextContent_nodup n texts h, ?_⟩
  intro body h
  unfold flattenLines
  rw [show (extractTextContent body []).map normSpace =
      (extractTextContent body []).map id from
    List.map_congr_left (fun a ha => by simpa using h a ha), List.map_id]
  exact List.Nodup.filter _ (extractTextContent_nodup body [] (by simp))

/-- Witness for C8 (amended): the cleaning-scenario tree, whose collected
texts are already whitespace-normal. -/
theorem claim8_flatten_dedup_amended_witness :
    (flattenLines scenarioBody).Nodup :=
  claim8_flatten_dedup_amended.2 scenarioBody (by decide)

/-! ## Claim C9: Event.startDate rejections -/

/-- C9 counterexample: an Event candidate missing BOTH `name` and `startDate`
is rejected, but the required-field loop stops at `name`, so the reason cites
`Event.name` and does not mention startDate — refuting the claim for
candidates whose name is also missing. -/
theorem claim9_missing_name_counterexample :
    checkRequiredFields dEvtNoName = some "Missing required field: Event.name" ∧
    strHasSub "Missing required field: Event.name" "startDate" = false :=
  ⟨by decide, by decide⟩

/-- C9 (amended): an Event candidate that passes the Zod schema gate, whose
`name` is present and nonempty, and whose `startDate` is null, absent or
empty is rejected with the reason `Missing required field: Event.startDate`
(which cites Event.startDate), its `validate` outcome is that error, and —
since a batch's accepted entities are exactly the records of candidates that
`validate` accepts — it never appears among the accepted entities.
(Without the gate hypothesis the reason can differ: a candidate with, say, an
invalid `offers.url` is pre-empted by a `Schema validation failed` rejection;
and when `name` is missing too, the required-field loop reports `Event.name`
first — see the counterexample.) -/
theorem claim9_event_startDate_amended (d : ExtractionResult) (e : EventData)
    (hzod : zodCheck d = none)
    (hty : d.detectedType = "Event") (he : d.event = some e)
    (hname : truthyStr e.name = true)
    (hstart : e.startDate = none ∨ e.startDate = some "") :
    checkRequiredFields d = some "Missing required field: Event.startDate" ∧
    strHasSub "Missing required field: Event.startDate" "startDate" = true ∧
    validate d = .err "Missing required field: Event.startDate" ∧
    isOk (validate d) = false ∧
    (∀ (cands : List ExtractionResult) (rep : MultiValidationSuccess),
        validateMultiEntity cands = .success rep →
        rep.acceptedEntities = acceptedOf cands) := by
  have hsd : schemaDataOf d = some (.event e) := by simp [schemaDataOf, hty, he]
  obtain ⟨s, hs, hsne⟩ : ∃ s, e.name = some s ∧ s ≠ "" := by
    cases hn : e.name with
    | none => rw [hn] at hname; simp [truthyStr] at hname
    | some s =>
        refine ⟨s, rfl, ?_⟩
        rw [hn] at hname
        simpa [truthyStr] using hname
  have hreq : checkRequiredFields d = some "Missing required field: Event.startDate" := by
    rcases hstart with h | h <;>
      simp [checkRequiredFields, hsd, hty, requiredFieldsFor, REQUIRED_FIELDS, assocLookup,
        checkFieldsLoop, SchemaData.getField, optStrField, hs, hsne, h]
  have hval : validate d = .err "Missing required field: Event.startDate" := by
    simp [validate, hzod, hreq]
  refine ⟨hreq, by decide, hval, by simp [hval, isOk], ?_⟩
  intro cands rep hv
  rw [validateMultiEntity_eq] at hv
  split at hv
  · cases hv
  · cases hv
    rfl

/-- Supporting fact for the C9 amendment's gate hypothesis: an Event whose
name is present and startDate missing, but whose `offers.url` is not a valid
URL, is pre-empted by the Zod gate — its rejection reason is a
schema-validation message that does not cite Event.startDate. -/
theorem zod_preempts_startDate_example :
    validate { detectedType := "Event",
               event := some { name := some "Concert", startDate := none, endDate := none,
                               eventStatus := none, location := none,
                               offers := some { price := none, priceCurrency := none,
                                                url := some "not a url" } } } =
      .err "Schema validation failed: event.offers.url: Invalid url" ∧
    strHasSub "Schema validation failed: event.offers.url: Invalid url" "startDate" =
      false :=
  ⟨by rfl, by decide⟩

/-- Witness for C9 (amended): the Zod-clean Event with name "Concert" and
null startDate. -/
theorem claim9_event_startDate_amended_witness :
    checkRequiredFields dEvtNoStart = some "Missing required field: Event.startDate" ∧
    isOk (validate dEvtNoStart) = false :=
  ⟨(claim9_event_startDate_amended dEvtNoStart
      { name := some "Concert", startDate := none, endDate := none,
        eventStatus := none, location := none, offers := none }
      (by rfl) rfl rfl (by decide) (Or.inl rfl)).1,
   (claim9_event_startDate_amended dEvtNoStart
      { name := some "Concert", startDate := none, endDate := none,
        eventStatus := none, location := none, offers := none }
      (by rfl) rfl rfl (by decide) (Or.inl rfl)).2.2.2.1⟩

/-! ## Claim C10: repairPrice never returns a negative number -/

theorem repairPrice_nonneg (v : Option NumStr) (q : ℚ) (h : repairPrice v = some q) :
    0 ≤ q := by
  cases v with
  | none => simp [repairPrice] at h
  | some nv =>
      have hx : repairPrice (some nv) =
          (match firstNumericRun (numStrToString nv).toList with
           | some m => parseFloatQ (replaceFirstComma (stripGroupCommas m))
           | none => none) := rfl
      rw [hx] at h
      cases hfr : firstNumericRun (numStrToString nv).toList with
      | none => rw [hfr] at h; cases h
      | some m => rw [hfr] at h; exact parseFloatQ_nonneg _ _ h

theorem addTruthyStr_ex (fs : List (String × Json)) (k : String) (v : Option String) :
    ∃ t, addTruthyStr fs k v = fs ++ t := by
  cases v with
  | none => exact ⟨[], by simp [addTruthyStr]⟩
  | some s =>
      by_cases h : s = ""
      · exact ⟨[], by simp [addTruthyStr, h]⟩
      · exact ⟨[(k, .str s)], by simp [addTruthyStr, h]⟩

theorem addOpeningHours_ex (fs : List (String × Json)) (oh : Option (List String)) :
    ∃ t, addOpeningHours fs oh = fs ++ t := by
  cases oh with
  | none => exact ⟨[], by simp [addOpeningHours]⟩
  | some l =>
      by_cases h : l.length ≠ 0
      · exact ⟨[("openingHoursSpecification", Json.arr (l.map Json.str))],
          by simp [addOpeningHours, h]⟩
      · exact ⟨[], by simp [addOpeningHours, h]⟩

/-- C10: `repairPrice` returns absent or a non-negative number — the regex
`[\d,]+\.?\d*` can never capture a minus sign, so the sign of a negative
input is silently dropped. And `buildJsonLd`'s LocalBusiness case feeds
`geo.latitude`/`geo.longitude` through the same `repairPrice`, so a business
whose coordinates repair successfully gets a geo object whose values are
those (necessarily non-negative) numbers. -/
theorem claim10_repairPrice_nonneg :
    (∀ (v : Option NumStr) (q : ℚ), repairPrice v = some q → 0 ≤ q) ∧
    (∀ (base : List (String × Json)) (b : LocalBusiness) (g : Geo) (lat lng : ℚ),
        b.geo = some g → repairPrice g.latitude = some lat →
        repairPrice g.longitude = some lng →
        0 ≤ lat ∧ 0 ≤ lng ∧
        ∃ pre post, buildLocalBusiness base b =
          Json.obj (pre ++ [("geo", Json.obj
            [("@type", Json.str "GeoCoordinates"),
             ("latitude", Json.num lat), ("longitude", Json.num lng)])] ++ post)) := by
  refine ⟨fun v q h => repairPrice_nonneg v q h, ?_⟩
  intro base b g lat lng hg hlat hlng
  refine ⟨repairPrice_nonneg _ _ hlat, repairPrice_nonneg _ _ hlng, ?_⟩
  simp only [buildLocalBusiness]
  rw [hg]
  have hgeo : addGeoField
      (addBizAddress
        (addTruthyStr (addNonemptyStrList (addTruthyStr base "name" b.name)
          "image" b.image) "telephone" b.telephone) b.address) (some g) =
      (addBizAddress
        (addTruthyStr (addNonemptyStrList (addTruthyStr base "name" b.name)
          "image" b.image) "telephone" b.telephone) b.address) ++
      [("geo", Json.obj
        [("@type", Json.str "GeoCoordinates"),
         ("latitude", Json.num lat), ("longitude", Json.num lng)])] := by
    simp [addGeoField, hlat, hlng]
  rw [hgeo]
  obtain ⟨t1, ht1⟩ := addOpeningHours_ex
    ((addBizAddress
        (addTruthyStr (addNonemptyStrList (addTruthyStr base "name" b.name)
          "image" b.image) "telephone" b.telephone) b.address) ++
      [("geo", Json.obj
        [("@type", Json.str "GeoCoordinates"),
         ("latitude", Json.num lat), ("longitude", Json.num lng)])]) b.openingHours
  rw [ht1]
  obtain ⟨t2, ht2⟩ := addTruthyStr_ex
    ((addBizAddress
        (addTruthyStr (addNonemptyStrList (addTruthyStr base "name" b.name)
          "image" b.image) "telephone" b.telephone) b.address) ++
      [("geo", Json.obj
        [("@type", Json.str "GeoCoordinates"),
         ("latitude", Json.num lat), ("longitude", Json.num lng)])] ++ t1)
    "priceRange" b.priceRange
  rw [ht2]
  exact ⟨addBizAddress
      (addTruthyStr (addNonemptyStrList (addTruthyStr base "name" b.name)
        "image" b.image) "telephone" b.telephone) b.address,
    t1 ++ t2, by simp⟩

/-- `repairPrice` drops the minus sign of a latitude string. -/
theorem repairPrice_negLatitude :
    repairPrice (some (.str "-33.8688")) = some (338688 / 10000 : ℚ) := by
  rw [repairPrice_str_eval "-33.8688" ['3', '3', '.', '8', '6', '8', '8']
      ['3', '3'] ['8', '6', '8', '8'] (by decide) (by decide) (by decide) (by decide),
    show digitsVal ['3', '3'] = 33 from by decide,
    show digitsVal ['8', '6', '8', '8'] = 8688 from by decide]
  norm_num

/-- `repairPrice` on the longitude string. -/
theorem repairPrice_longitude :
    repairPrice (some (.str "151.2093")) = some (1512093 / 10000 : ℚ) := by
  rw [repairPrice_str_eval "151.2093" ['1', '5', '1', '.', '2', '0', '9', '3']
      ['1', '5', '1'] ['2', '0', '9', '3'] (by decide) (by decide) (by decide) (by decide),
    show digitsVal ['1', '5', '1'] = 151 from by decide,
    show digitsVal ['2', '0', '9', '3'] = 2093 from by decide]
  norm_num

/-- Witness for C10: the Sydney business — latitude "-33.8688" repairs to the
POSITIVE 33.8688 and lands in the built geo object. -/
theorem claim10_repairPrice_nonneg_witness :
    (0 : ℚ) ≤ 338688 / 10000 ∧ (0 : ℚ) ≤ 1512093 / 10000 ∧
    ∃ pre post, buildLocalBusiness
      [("@context", Json.str "https://schema.org"), ("@type", Json.str "LocalBusiness")]
      bizNegGeo =
      Json.obj (pre ++ [("geo", Json.obj
        [("@type", Json.str "GeoCoordinates"),
         ("latitude", Json.num (338688 / 10000 : ℚ)),
         ("longitude", Json.num (1512093 / 10000 : ℚ))])] ++ post) :=
  claim10_repairPrice_nonneg.2
    [("@context", Json.str "https://schema.org"), ("@type", Json.str "LocalBusiness")]
    bizNegGeo negGeo (338688 / 10000) (1512093 / 10000)
    rfl repairPrice_negLatitude repairPrice_longitude

end SDGen
